import Mathlib

/-!
Verification development for the distance-cartogram interpolation grid
(Waldo Tobler bidimensional regression).

The Rust sources are shallowly embedded over `ℚ`: every `f64` value is
modelled as an exact rational, so the algebraic structure of the code is
captured while floating-point rounding is abstracted away.  The two places
where the code calls `f64::sqrt` (the resolution formula and the stored
RMSE metrics / convergence test) are modelled by an explicit function
parameter `sqrtF : ℚ → ℚ` threaded through the constructors; concrete
instantiations use `ratSqrt`, which is exact on perfect squares.
-/

namespace DC

/-- A planar coordinate, mirroring geo_types::Coord over f64. -/
structure Coord where
  x : ℚ
  y : ℚ
deriving DecidableEq, Repr

instance : Inhabited Coord := ⟨⟨0, 0⟩⟩

/-- bbox.rs: BBox. -/
structure BBox where
  xmin : ℚ
  ymin : ℚ
  xmax : ℚ
  ymax : ℚ
deriving DecidableEq, Repr

/-- bbox.rs: BBox::contains (closed on all sides). -/
def BBox.contains (b : BBox) (p : Coord) : Bool :=
  p.x ≥ b.xmin && p.x ≤ b.xmax && p.y ≥ b.ymin && p.y ≤ b.ymax

/-- bbox.rs: BBox::contains_bbox. -/
def BBox.contains_bbox (b : BBox) (o : BBox) : Bool :=
  o.xmin ≥ b.xmin && o.xmax ≤ b.xmax && o.ymin ≥ b.ymin && o.ymax ≤ b.ymax

/-- rectangle.rs: Rectangle2D (origin + extent).  The constructor argument
order of the source is `new(x, y, height, width)`. -/
structure Rectangle2D where
  x : ℚ
  y : ℚ
  height : ℚ
  width : ℚ
deriving DecidableEq, Repr

/-- rectangle.rs: Rectangle2D::new (note the source's `(x, y, height, width)`
argument order). -/
def Rectangle2D.new (x y height width : ℚ) : Rectangle2D :=
  ⟨x, y, height, width⟩

/-- rectangle.rs: Rectangle2D::add.  The `is_nan` seeding branch of the source
is unreachable in this model: `ℚ` has no NaN and every rectangle reaching
`add` here is built by `new`, `from_points` or `from_bbox` with finite
fields, so only the growth logic is embedded. -/
def Rectangle2D.add (r : Rectangle2D) (pt : Coord) : Rectangle2D :=
  let r :=
    if pt.x < r.x then { r with width := r.width + (r.x - pt.x), x := pt.x }
    else if pt.x > r.x + r.width then { r with width := pt.x - r.x }
    else r
  if pt.y < r.y then { r with height := r.height + (r.y - pt.y), y := pt.y }
  else if pt.y > r.y + r.height then { r with height := pt.y - r.y }
  else r

/-- rectangle.rs: Rectangle2D::set_rect_from_center. -/
def Rectangle2D.set_rect_from_center (r : Rectangle2D) (center corner : Coord) :
    Rectangle2D :=
  { r with
    x := center.x - |corner.x - center.x|
    y := center.y - |corner.y - center.y|
    width := |corner.x - center.x| * 2
    height := |corner.y - center.y| * 2 }

def Rectangle2D.center_x (r : Rectangle2D) : ℚ := r.x + r.width / 2

def Rectangle2D.center_y (r : Rectangle2D) : ℚ := r.y + r.height / 2

def Rectangle2D.min_x (r : Rectangle2D) : ℚ := r.x

def Rectangle2D.max_x (r : Rectangle2D) : ℚ := r.x + r.width

def Rectangle2D.min_y (r : Rectangle2D) : ℚ := r.y

def Rectangle2D.max_y (r : Rectangle2D) : ℚ := r.y + r.height

/-- rectangle.rs: Rectangle2D::from_points. -/
def Rectangle2D.from_points (points : List Coord) : Rectangle2D :=
  match points with
  | [] => Rectangle2D.new 0 0 0 0
  | p :: rest => rest.foldl Rectangle2D.add (Rectangle2D.new p.x p.y 0 0)

/-- rectangle.rs: Rectangle2D::from_bbox. -/
def Rectangle2D.from_bbox (b : BBox) : Rectangle2D :=
  ⟨b.xmin, b.ymin, b.ymax - b.ymin, b.xmax - b.xmin⟩

/-- rectangle.rs: Rectangle2D::as_bbox. -/
def Rectangle2D.as_bbox (r : Rectangle2D) : BBox :=
  ⟨r.x, r.y, r.x + r.width, r.y + r.height⟩

/-- node.rs: Node. -/
structure Node where
  i : ℕ
  j : ℕ
  source : Coord
  interp : Coord
  weight : ℚ
deriving DecidableEq, Repr

/-- node.rs: Node::new. -/
def Node.new (i j : ℕ) (source : Coord) : Node :=
  ⟨i, j, source, source, 0⟩

instance : Inhabited Node := ⟨Node.new 0 0 ⟨0, 0⟩⟩

/-- node.rs: NodeSet. -/
structure NodeSet where
  nodes : List Node
  zone : Rectangle2D
  resolution : ℚ
  width : ℕ
  height : ℕ
deriving DecidableEq, Repr

/-- The initial zone of NodeSet::new: the tight rectangle of the points when
no bbox is given, else the bbox rectangle grown by every point. -/
def initialZone (points : List Coord) (bbox : Option BBox) : Rectangle2D :=
  match bbox with
  | none => Rectangle2D.from_points points
  | some b => points.foldl Rectangle2D.add (Rectangle2D.from_bbox b)

/-- The core of node.rs NodeSet::new once the initial zone and the resolution
have been computed (the source computes `resolution` inline from `precision`
via `f64::sqrt`; that value is factored out as the argument `resolution`
here, see `NodeSet.new`). -/
def NodeSet.build (zone0 : Rectangle2D) (resolution : ℚ) : NodeSet :=
  let width := (⌈zone0.width / resolution⌉).toNat + 1
  let height := (⌈zone0.height / resolution⌉).toNat + 1
  let dx := (width : ℚ) * resolution - zone0.width
  let dy := (height : ℚ) * resolution - zone0.height
  let zone := zone0.set_rect_from_center
    ⟨zone0.center_x, zone0.center_y⟩
    ⟨zone0.min_x - dx / 2, zone0.min_y - dy / 2⟩
  let width := width + 1
  let height := height + 1
  let nodes := (List.range height).flatMap fun i =>
    (List.range width).map fun j =>
      Node.new i j ⟨zone.min_x + (j : ℚ) * resolution, zone.max_y - (i : ℚ) * resolution⟩
  { nodes := nodes, zone := zone, resolution := resolution, width := width, height := height }

/-- node.rs: NodeSet::new.  `sqrtF` models `f64::sqrt`. -/
def NodeSet.new (points : List Coord) (precision : ℚ) (bbox : Option BBox)
    (sqrtF : ℚ → ℚ) : NodeSet :=
  let zone := initialZone points bbox
  let resolution := 1 / precision * sqrtF (zone.width * zone.height / (points.length : ℚ))
  NodeSet.build zone resolution

/-- node.rs: NodeSet::is_in_grid. -/
def NodeSet.is_in_grid (ns : NodeSet) (i j : ℤ) : Bool :=
  i < (ns.height : ℤ) && j < (ns.width : ℤ) && i ≥ 0 && j ≥ 0

/-- node.rs: NodeSet::get_node, modelling the row-major vec access
`nodes[i*width + j]`; out-of-bounds (a panic in Rust) yields the default
node, and every verified access is separately proven in bounds. -/
def NodeSet.get_node (ns : NodeSet) (i j : ℕ) : Node :=
  ns.nodes.getD (i * ns.width + j) default

/-- The bounds-checked view of the same vec access; `none` models the Rust
panic on an out-of-bounds index. -/
def NodeSet.get_node? (ns : NodeSet) (i j : ℕ) : Option Node :=
  ns.nodes.get? (i * ns.width + j)

/-- Write access to the node at (i, j); out-of-bounds writes are dropped
(`List.set` is the identity there), matching the convention of
`NodeSet.get_node`. -/
def NodeSet.modifyNode (ns : NodeSet) (i j : ℕ) (f : Node → Node) : NodeSet :=
  let idx := i * ns.width + j
  { ns with nodes := ns.nodes.set idx (f (ns.nodes.getD idx default)) }

/-- node.rs: NodeSet::get_i — `((zone.max_y − p.y) / resolution).floor() as usize`.
`Int.toNat` of the floor models Rust's saturating float-to-usize cast. -/
def NodeSet.get_i (ns : NodeSet) (p : Coord) : ℕ :=
  (⌊(ns.zone.max_y - p.y) / ns.resolution⌋).toNat

/-- node.rs: NodeSet::get_j. -/
def NodeSet.get_j (ns : NodeSet) (p : Coord) : ℕ :=
  (⌊(p.x - ns.zone.min_x) / ns.resolution⌋).toNat

/-- node.rs: NodeSet::get_adjacent_nodes — the four cell corners in the fixed
order (i,j), (i,j+1), (i+1,j), (i+1,j+1). -/
def NodeSet.get_adjacent_nodes (ns : NodeSet) (p : Coord) :
    Node × Node × Node × Node :=
  let i := ns.get_i p
  let j := ns.get_j p
  (ns.get_node i j, ns.get_node i (j + 1), ns.get_node (i + 1) j,
    ns.get_node (i + 1) (j + 1))

/-- node.rs: NodeSet::update_adjacent_node. -/
def NodeSet.update_adjacent_node (ns : NodeSet) (p : Coord) (k : ℕ)
    (f : Node → Node) : NodeSet :=
  let ij :=
    if k = 0 then (ns.get_i p, ns.get_j p)
    else if k = 1 then (ns.get_i p, ns.get_j p + 1)
    else if k = 2 then (ns.get_i p + 1, ns.get_j p)
    else (ns.get_i p + 1, ns.get_j p + 1)
  ns.modifyNode ij.1 ij.2 f

/-- node.rs: NodeSet::set_weight_adjacent_nodes — four sequential in-place
weight increments. -/
def NodeSet.set_weight_adjacent_nodes (ns : NodeSet) (p : Coord) (value : ℚ) :
    NodeSet :=
  let i := ns.get_i p
  let j := ns.get_j p
  let ns := ns.modifyNode i j fun n => { n with weight := n.weight + value }
  let ns := ns.modifyNode i (j + 1) fun n => { n with weight := n.weight + value }
  let ns := ns.modifyNode (i + 1) j fun n => { n with weight := n.weight + value }
  ns.modifyNode (i + 1) (j + 1) fun n => { n with weight := n.weight + value }

/-- node.rs: NodeSet::get_smoothed. -/
def NodeSet.get_smoothed (ns : NodeSet) (i j : ℕ) (scale_x scale_y : ℚ) : Coord :=
  if 1 < i ∧ 1 < j ∧ i < ns.height - 2 ∧ j < ns.width - 2 then
    let pa := (ns.get_node (i - 1) j).interp
    let pb := (ns.get_node (i + 1) j).interp
    let pc := (ns.get_node i (j - 1)).interp
    let pd := (ns.get_node i (j + 1)).interp
    let pe := (ns.get_node (i - 1) (j - 1)).interp
    let pf := (ns.get_node (i + 1) (j - 1)).interp
    let pg := (ns.get_node (i + 1) (j + 1)).interp
    let ph := (ns.get_node (i - 1) (j + 1)).interp
    let pi := (ns.get_node (i - 2) j).interp
    let pj := (ns.get_node (i + 2) j).interp
    let pk := (ns.get_node i (j - 2)).interp
    let pl := (ns.get_node i (j + 2)).interp
    ⟨(8 * (pa.x + pb.x + pc.x + pd.x) - 2 * (pe.x + pf.x + pg.x + ph.x)
        - (pi.x + pj.x + pk.x + pl.x)) / 20,
      (8 * (pa.y + pb.y + pc.y + pd.y) - 2 * (pe.y + pf.y + pg.y + ph.y)
        - (pi.y + pj.y + pk.y + pl.y)) / 20⟩
  else
    -- the four guarded accumulations of the source, written with one
    -- conditional per mutated accumulator (sx, sy, nb)
    let nN := (ns.get_node (i - 1) j).interp
    let nW := (ns.get_node i (j - 1)).interp
    let nS := (ns.get_node (i + 1) j).interp
    let nE := (ns.get_node i (j + 1)).interp
    let sx : ℚ :=
      (if 0 < i then nN.x else 0) + (if 0 < j then nW.x else -(ns.resolution * scale_x))
        + (if i < ns.height - 1 then nS.x else 0)
        + (if j < ns.width - 1 then nE.x else ns.resolution * scale_x)
    let sy : ℚ :=
      (if 0 < i then nN.y else ns.resolution * scale_y) + (if 0 < j then nW.y else 0)
        + (if i < ns.height - 1 then nS.y else -(ns.resolution * scale_y))
        + (if j < ns.width - 1 then nE.y else 0)
    let nb : ℕ :=
      (if 0 < i then 1 else 0) + (if 0 < j then 1 else 0)
        + (if i < ns.height - 1 then 1 else 0) + (if j < ns.width - 1 then 1 else 0)
    ⟨sx / (nb : ℚ), sy / (nb : ℚ)⟩

/-- errors.rs: the error kinds reachable from the core grid API. -/
inductive Error where
  | InvalidInputPointsLength
  | GeometriesNotInBBox
  | PointNotInBBox
deriving DecidableEq, Repr

/-- grid.rs: RMSE record. -/
structure RMSE where
  rmse : ℚ
  rmse_x : ℚ
  rmse_y : ℚ
deriving DecidableEq, Repr

/-- grid.rs: GridType. -/
inductive GridType where
  | Source
  | Interpolated
deriving DecidableEq, Repr

/-- utils.rs: distance_sq. -/
def distance_sq (p1 p2 : Coord) : ℚ :=
  (p1.x - p2.x) ^ 2 + (p1.y - p2.y) ^ 2

/-- utils.rs: mae — the `for i in 0..n` accumulation with `n = image.len()`. -/
def mae (image_points interpolated_points : List Coord) : ℚ :=
  let n := image_points.length
  let sum_abs_error := (List.range n).foldl
    (fun acc i =>
      acc + (|(image_points.getD i default).x - (interpolated_points.getD i default).x|
        + |(image_points.getD i default).y - (interpolated_points.getD i default).y|))
    0
  sum_abs_error / (n : ℚ)

/-- utils.rs: rmse; `sqrtF` models `f64::sqrt`. -/
def rmse (sqrtF : ℚ → ℚ) (points1 points2 : List Coord) : RMSE :=
  let n := points1.length
  let sums := (List.range n).foldl
    (fun acc i =>
      let dx := (points1.getD i default).x - (points2.getD i default).x
      let dy := (points1.getD i default).y - (points2.getD i default).y
      (acc.1 + dx * dx, acc.2 + dy * dy))
    ((0 : ℚ), (0 : ℚ))
  ⟨sqrtF ((sums.1 + sums.2) / (n : ℚ)), sqrtF (sums.1 / (n : ℚ)),
    sqrtF (sums.2 / (n : ℚ))⟩

/-- utils.rs: r_squared. -/
def r_squared (image_points interpolated_points : List Coord) : ℚ :=
  let n := image_points.length
  let mean_x := (image_points.map (·.x)).sum / (n : ℚ)
  let mean_y := (image_points.map (·.y)).sum / (n : ℚ)
  let sums := (List.range n).foldl
    (fun acc i =>
      let dx := (image_points.getD i default).x - (interpolated_points.getD i default).x
      let dy := (image_points.getD i default).y - (interpolated_points.getD i default).y
      let dxt := (image_points.getD i default).x - mean_x
      let dyt := (image_points.getD i default).y - mean_y
      (acc.1 + (dx * dx + dy * dy), acc.2 + (dxt * dxt + dyt * dyt)))
    ((0 : ℚ), (0 : ℚ))
  1 - sums.1 / sums.2

/-- grid.rs Grid::interpolate lines 124-132: the rectangle grown from the
initial `Rectangle2D::new(0., 0., -1., -1.)` by adding every point. -/
def solverRect (points : List Coord) : Rectangle2D :=
  points.foldl Rectangle2D.add (Rectangle2D.new 0 0 (-1) (-1))

/-- grid.rs Grid::interpolate line 134: `scale_x = rect_adj.width() / rect.width()`. -/
def scale_x (points image_points : List Coord) : ℚ :=
  (solverRect image_points).width / (solverRect points).width

/-- grid.rs Grid::interpolate line 135: `scale_y = rect_adj.height() / rect.height()`. -/
def scale_y (points image_points : List Coord) : ℚ :=
  (solverRect image_points).height / (solverRect points).height

/-- The shared bilinear stencil of grid.rs (lines 179-188 inside the solver
and lines 253-264 in `_get_interp_point`): identical arithmetic over the
four adjacent nodes. -/
def interpStencil (resolution : ℚ) (p : Coord) (a0 a1 a2 a3 : Node) : Coord :=
  let ux1 := p.x - a0.source.x
  let vy1 := p.y - a2.source.y
  let hx1 := ux1 / resolution * (a1.interp.x - a0.interp.x) + a0.interp.x
  let hx2 := ux1 / resolution * (a3.interp.x - a2.interp.x) + a2.interp.x
  let hx := vy1 / resolution * (hx1 - hx2) + hx2
  let hy1 := ux1 / resolution * (a1.interp.y - a0.interp.y) + a0.interp.y
  let hy2 := ux1 / resolution * (a3.interp.y - a2.interp.y) + a2.interp.y
  let hy := vy1 / resolution * (hy1 - hy2) + hy2
  ⟨hx, hy⟩

/-- grid.rs Grid::interpolate lines 143-206: Phase I update for a single
homologous pair `(src, adj)`.  The four node reads are a snapshot taken
before the four sequential writes, exactly as the Rust clones them. -/
def phase1Pair (resolution sx sy : ℚ) (ns : NodeSet) (pair : Coord × Coord) :
    NodeSet :=
  let src := pair.1
  let adj := pair.2
  let a := ns.get_adjacent_nodes src
  let a0 := a.1
  let a1 := a.2.1
  let a2 := a.2.2.1
  let a3 := a.2.2.2
  let s0 := ns.get_smoothed a0.i a0.j sx sy
  let s1 := ns.get_smoothed a1.i a1.j sx sy
  let s2 := ns.get_smoothed a2.i a2.j sx sy
  let s3 := ns.get_smoothed a3.i a3.j sx sy
  let ux1 := src.x - a0.source.x
  let ux2 := resolution - ux1
  let vy1 := src.y - a2.source.y
  let vy2 := resolution - vy1
  let u := 1 / (ux1 * ux1 + ux2 * ux2)
  let v := 1 / (vy1 * vy1 + vy2 * vy2)
  let w0 := vy1 * ux2
  let w1 := vy1 * ux1
  let w2 := vy2 * ux2
  let w3 := vy2 * ux1
  let sw := w0 ^ 2 + w1 ^ 2 + w2 ^ 2 + w3 ^ 2
  let dzx0 := a0.interp.x - s0.x
  let dzx1 := a1.interp.x - s1.x
  let dzx2 := a2.interp.x - s2.x
  let dzx3 := a3.interp.x - s3.x
  let dzy0 := a0.interp.y - s0.y
  let dzy1 := a1.interp.y - s1.y
  let dzy2 := a2.interp.y - s2.y
  let dzy3 := a3.interp.y - s3.y
  let qx0 := w0 * dzx0
  let qx1 := w1 * dzx1
  let qx2 := w2 * dzx2
  let qx3 := w3 * dzx3
  let qy0 := w0 * dzy0
  let qy1 := w1 * dzy1
  let qy2 := w2 * dzy2
  let qy3 := w3 * dzy3
  let sqx := qx0 + qx1 + qx2 + qx3
  let sqy := qy0 + qy1 + qy2 + qy3
  let h := interpStencil resolution src a0 a1 a2 a3
  let delta_x := adj.x - h.x
  let delta_y := adj.y - h.y
  let dx := delta_x * resolution * resolution
  let dy := delta_y * resolution * resolution
  let adjx0 := u * v * ((dx - qx0 + sqx) * w0 + dzx0 * (w0 * w0 - sw)) / a0.weight
  let adjy0 := u * v * ((dy - qy0 + sqy) * w0 + dzy0 * (w0 * w0 - sw)) / a0.weight
  let adjx1 := u * v * ((dx - qx1 + sqx) * w1 + dzx1 * (w1 * w1 - sw)) / a1.weight
  let adjy1 := u * v * ((dy - qy1 + sqy) * w1 + dzy1 * (w1 * w1 - sw)) / a1.weight
  let adjx2 := u * v * ((dx - qx2 + sqx) * w2 + dzx2 * (w2 * w2 - sw)) / a2.weight
  let adjy2 := u * v * ((dy - qy2 + sqy) * w2 + dzy2 * (w2 * w2 - sw)) / a2.weight
  let adjx3 := u * v * ((dx - qx3 + sqx) * w3 + dzx3 * (w3 * w3 - sw)) / a3.weight
  let adjy3 := u * v * ((dy - qy3 + sqy) * w3 + dzy3 * (w3 * w3 - sw)) / a3.weight
  let ns := ns.update_adjacent_node src 0 fun n =>
    { n with interp := ⟨n.interp.x + adjx0, n.interp.y + adjy0⟩ }
  let ns := ns.update_adjacent_node src 1 fun n =>
    { n with interp := ⟨n.interp.x + adjx1, n.interp.y + adjy1⟩ }
  let ns := ns.update_adjacent_node src 2 fun n =>
    { n with interp := ⟨n.interp.x + adjx2, n.interp.y + adjy2⟩ }
  ns.update_adjacent_node src 3 fun n =>
    { n with interp := ⟨n.interp.x + adjx3, n.interp.y + adjy3⟩ }

/-- grid.rs Grid::interpolate lines 214-226: one row-major Phase II visit of
node (i, j), smoothing it when its weight is zero and tracking the maximal
normalized squared displacement. -/
def phase2Visit (sx sy : ℚ) (rect_dim : ℕ) (acc : NodeSet × ℚ) (ij : ℕ × ℕ) :
    NodeSet × ℚ :=
  let ns := acc.1
  let delta := acc.2
  let i := ij.1
  let j := ij.2
  if (ns.get_node i j).weight = 0 then
    let p := ns.get_smoothed i j sx sy
    let p_tmp := (ns.get_node i j).interp
    let ns := ns.modifyNode i j fun n => { n with interp := p }
    (ns, max delta (distance_sq p_tmp p / (rect_dim : ℚ)))
  else (ns, delta)

/-- One full Phase II sweep over the lattice in row-major order. -/
def phase2Sweep (sx sy : ℚ) (rect_dim : ℕ) (ns : NodeSet) : NodeSet × ℚ :=
  ((List.range ns.height).flatMap fun i =>
      (List.range ns.width).map fun j => (i, j)).foldl
    (phase2Visit sx sy rect_dim) (ns, 0)

/-- grid.rs Grid::interpolate lines 211-230: the Phase II loop, at most
`width*height` sweeps, breaking once `l > 5` and `delta.sqrt() < 0.0001`. -/
def phase2Go (sqrtF : ℚ → ℚ) (sx sy : ℚ) (rect_dim : ℕ) :
    ℕ → ℕ → NodeSet → NodeSet
  | 0, _, ns => ns
  | fuel + 1, l, ns =>
    let r := phase2Sweep sx sy rect_dim ns
    if 5 < l ∧ sqrtF r.2 < 1 / 10000 then r.1
    else phase2Go sqrtF sx sy rect_dim fuel (l + 1) r.1

/-- One outer solver pass: Phase I over every homologous pair in input
order, then Phase II. -/
def solverPass (sqrtF : ℚ → ℚ) (resolution sx sy : ℚ) (rect_dim : ℕ)
    (pairs : List (Coord × Coord)) (ns : NodeSet) : NodeSet :=
  let ns := pairs.foldl (phase1Pair resolution sx sy) ns
  phase2Go sqrtF sx sy rect_dim rect_dim 0 ns

/-- grid.rs Grid::interpolate line 142: the `for _k in 0..n_iter` outer loop. -/
def solverIter (sqrtF : ℚ → ℚ) (resolution sx sy : ℚ) (rect_dim : ℕ)
    (pairs : List (Coord × Coord)) : ℕ → NodeSet → NodeSet
  | 0, ns => ns
  | n + 1, ns =>
    solverIter sqrtF resolution sx sy rect_dim pairs n
      (solverPass sqrtF resolution sx sy rect_dim pairs ns)

/-- Modelled from the spec: `NodeSet::get_adjacent_nodes_ref` is called by
`Grid::_get_interp_point` (grid.rs line 251) but its definition is not part
of the sources at hand; per spec §4.2 the adjacent nodes of a point are the
four corners of its containing cell in the fixed order (i,j), (i,j+1),
(i+1,j), (i+1,j+1), read straight from the row-major node vec.  This is the
bounds-checked view (`none` models the Rust panic on an out-of-bounds
index). -/
def NodeSet.get_adjacent_nodes_ref (ns : NodeSet) (p : Coord) :
    Option (Node × Node × Node × Node) := do
  let i := ns.get_i p
  let j := ns.get_j p
  let a0 ← ns.get_node? i j
  let a1 ← ns.get_node? i (j + 1)
  let a2 ← ns.get_node? (i + 1) j
  let a3 ← ns.get_node? (i + 1) (j + 1)
  pure (a0, a1, a2, a3)

/-- grid.rs: Grid::_get_interp_point, total view (every verified use is on a
point whose four adjacent indices are proven in bounds, where it agrees with
the checked view `interp_point?`). -/
def NodeSet.interp_point (ns : NodeSet) (p : Coord) : Coord :=
  let i := ns.get_i p
  let j := ns.get_j p
  interpStencil ns.resolution p (ns.get_node i j) (ns.get_node i (j + 1))
    (ns.get_node (i + 1) j) (ns.get_node (i + 1) (j + 1))

/-- grid.rs: Grid::_get_interp_point, bounds-checked view (`none` models the
panic of the underlying vec accesses). -/
def NodeSet.interp_point? (ns : NodeSet) (p : Coord) : Option Coord :=
  (ns.get_adjacent_nodes_ref p).map fun a =>
    interpStencil ns.resolution p a.1 a.2.1 a.2.2.1 a.2.2.2

/-- grid.rs: Grid. -/
structure Grid where
  nodes : NodeSet
  interpolated_points : List Coord
  mae : ℚ
  r_squared : ℚ
  rmse_interpolated_image : RMSE
  rmse_interpolated_source : RMSE
deriving DecidableEq, Repr

/-- grid.rs Grid::interpolate: run the solver on a seeded node set and fill
in the cached interpolated points and the metrics. -/
def Grid.interpolate (sqrtF : ℚ → ℚ) (ns : NodeSet)
    (points image_points : List Coord) (n_iter : ℕ) : Grid :=
  let sx := scale_x points image_points
  let sy := scale_y points image_points
  let resolution := ns.resolution
  let rect_dim := ns.width * ns.height
  let ns := solverIter sqrtF resolution sx sy rect_dim
    (points.zip image_points) n_iter ns
  let interpolated_points := points.map ns.interp_point
  { nodes := ns
    interpolated_points := interpolated_points
    mae := DC.mae image_points interpolated_points
    r_squared := DC.r_squared image_points interpolated_points
    rmse_interpolated_image := DC.rmse sqrtF interpolated_points image_points
    rmse_interpolated_source := DC.rmse sqrtF points interpolated_points }

/-- grid.rs Grid::new lines 92-94: the weight-seeding loop over the source
points. -/
def seedWeights (ns : NodeSet) (points : List Coord) : NodeSet :=
  points.foldl (fun ns p => ns.set_weight_adjacent_nodes p 1) ns

/-- grid.rs Grid::new, success path: build the node set, seed the weights of
the nodes adjacent to every source point, then interpolate. -/
def grid_of (source_points image_points : List Coord) (precision : ℚ)
    (n_iter : ℕ) (bbox : Option BBox) (sqrtF : ℚ → ℚ) : Grid :=
  let ns := NodeSet.new source_points precision bbox sqrtF
  let ns := seedWeights ns source_points
  Grid.interpolate sqrtF ns source_points image_points n_iter

/-- grid.rs: Grid::new. -/
def Grid.new (source_points image_points : List Coord) (precision : ℚ)
    (n_iter : ℕ) (bbox : Option BBox) (sqrtF : ℚ → ℚ) : Except Error Grid :=
  if source_points.length ≠ image_points.length ∨ source_points = [] then
    .error .InvalidInputPointsLength
  else
    .ok (grid_of source_points image_points precision n_iter bbox sqrtF)

/-- grid.rs: Grid::bbox. -/
def Grid.bbox (g : Grid) : BBox :=
  g.nodes.zone.as_bbox

/-- grid.rs: Grid::get_interp_point. -/
def Grid.get_interp_point (g : Grid) (src_point : Coord) : Except Error Coord :=
  if ¬ g.bbox.contains src_point then .error .PointNotInBBox
  else .ok (g.nodes.interp_point src_point)

/-- grid.rs Grid::get_grid: each lattice cell as its four corner
coordinates, row-major; geo_types closes the ring itself so the first
vertex is not repeated. -/
def NodeSet.gridPolys (ns : NodeSet) (getter : Node → Coord) : List (List Coord) :=
  (List.range (ns.height - 1)).flatMap fun i =>
    (List.range (ns.width - 1)).map fun j =>
      [getter (ns.get_node i j), getter (ns.get_node (i + 1) j),
        getter (ns.get_node (i + 1) (j + 1)), getter (ns.get_node i (j + 1))]

/-- grid.rs: Grid::get_grid. -/
def Grid.get_grid (g : Grid) (grid_type : GridType) : List (List Coord) :=
  g.nodes.gridPolys (match grid_type with
    | .Source => fun n => n.source
    | .Interpolated => fun n => n.interp)

/-- Exact rational square root on perfect squares (and an arbitrary
under-approximation elsewhere); used to instantiate the `sqrtF` parameter on
concrete inputs. -/
def natSqrtGo (n : ℕ) : ℕ → ℕ
  | 0 => 0
  | k + 1 => if (k + 1) * (k + 1) ≤ n then k + 1 else natSqrtGo n k

/-- Largest k ≤ n with k*k ≤ n, by structural descent (kernel-reducible). -/
def natSqrt (n : ℕ) : ℕ := natSqrtGo n n

def ratSqrt (q : ℚ) : ℚ :=
  (natSqrt q.num.toNat : ℚ) / (natSqrt q.den : ℚ)

/-- A polygon in the sense of geo_types: one exterior ring and a list of
interior rings (holes). -/
structure PolygonG where
  exterior : List Coord
  interiors : List (List Coord)
deriving DecidableEq, Repr

/-- The geo_types::Geometry variants handled by bbox.rs and grid.rs. -/
inductive Geometry where
  | point (p : Coord)
  | multiPoint (ps : List Coord)
  | lineString (cs : List Coord)
  | multiLineString (ls : List (List Coord))
  | polygon (pg : PolygonG)
  | multiPolygon (pgs : List PolygonG)
  | geometryCollection (gs : List Geometry)
  | line (start stop : Coord)
  | triangle (a b c : Coord)
  | rect (rmin rmax : Coord)

/-- Extended rationals with both infinities, modelling the `f64::INFINITY` /
`f64::NEG_INFINITY` accumulators of `BBox::from_geometries` (⊤ is +∞, ⊥ is
−∞; comparisons agree with the f64 total order on non-NaN values). -/
abbrev ERat := WithBot (WithTop ℚ)

def toERat (q : ℚ) : ERat := ((q : WithTop ℚ) : ERat)

/-- The min/max accumulator of bbox.rs BBox::from_geometries. -/
structure EBBox where
  xmin : ERat
  ymin : ERat
  xmax : ERat
  ymax : ERat

/-- bbox.rs BBox::from_geometries lines 49-52: the accumulator starts at
(+∞, +∞, −∞, −∞). -/
def EBBox.init : EBBox :=
  ⟨((⊤ : WithTop ℚ) : ERat), ((⊤ : WithTop ℚ) : ERat), (⊥ : ERat), (⊥ : ERat)⟩

/-- bbox.rs BBox::from_geometries lines 54-67: the `box_coord` closure
(generalized to possibly-infinite inputs so that the corners of a recursive
GeometryCollection bbox can be folded back in). -/
def EBBox.boxCoord (b : EBBox) (cx cy : ERat) : EBBox :=
  { xmin := if cx < b.xmin then cx else b.xmin
    xmax := if cx > b.xmax then cx else b.xmax
    ymin := if cy < b.ymin then cy else b.ymin
    ymax := if cy > b.ymax then cy else b.ymax }

def EBBox.boxCoordQ (b : EBBox) (c : Coord) : EBBox :=
  b.boxCoord (toERat c.x) (toERat c.y)

mutual

/-- bbox.rs BBox::from_geometries lines 69-114: folding one geometry into
the accumulator. -/
def boxGeom (b : EBBox) : Geometry → EBBox
  | .point p => b.boxCoordQ p
  | .multiPoint ps => ps.foldl EBBox.boxCoordQ b
  | .lineString cs => cs.foldl EBBox.boxCoordQ b
  | .multiLineString ls => ls.foldl (fun b l => l.foldl EBBox.boxCoordQ b) b
  | .polygon pg => pg.exterior.foldl EBBox.boxCoordQ b
  | .multiPolygon pgs => pgs.foldl (fun b p => p.exterior.foldl EBBox.boxCoordQ b) b
  | .geometryCollection gs =>
    let bb := boxGeoms EBBox.init gs
    (b.boxCoord bb.xmin bb.ymin).boxCoord bb.xmax bb.ymax
  | .line s e => (b.boxCoordQ s).boxCoordQ e
  | .triangle p q r => ((b.boxCoordQ p).boxCoordQ q).boxCoordQ r
  | .rect rmin rmax => (b.boxCoordQ rmin).boxCoordQ rmax

def boxGeoms (b : EBBox) : List Geometry → EBBox
  | [] => b
  | g :: gs => boxGeoms (boxGeom b g) gs

end

/-- bbox.rs: BBox::from_geometries (result kept in the extended accumulator
form; an empty collection leaves the infinities in place, as in the
source). -/
def from_geometries (gs : List Geometry) : EBBox :=
  boxGeoms EBBox.init gs

/-- bbox.rs BBox::contains_bbox applied to the (possibly infinite) bbox of a
geometry collection, as done by Grid::interpolate_layer. -/
def BBox.contains_ebbox (b : BBox) (o : EBBox) : Bool :=
  o.xmin ≥ toERat b.xmin && o.xmax ≤ toERat b.xmax
    && o.ymin ≥ toERat b.ymin && o.ymax ≤ toERat b.ymax

/-- Traverse a list of vertices through the checked point interpolator. -/
def mapPoints? (ns : NodeSet) : List Coord → Option (List Coord)
  | [] => some []
  | c :: cs => do pure ((← ns.interp_point? c) :: (← mapPoints? ns cs))

def mapLists? (ns : NodeSet) : List (List Coord) → Option (List (List Coord))
  | [] => some []
  | l :: ls => do pure ((← mapPoints? ns l) :: (← mapLists? ns ls))

/-- grid.rs Grid::interpolate_geom, Polygon arm: exterior then interiors. -/
def interpPoly? (ns : NodeSet) (pg : PolygonG) : Option PolygonG := do
  pure ⟨← mapPoints? ns pg.exterior, ← mapLists? ns pg.interiors⟩

def mapPolys? (ns : NodeSet) : List PolygonG → Option (List PolygonG)
  | [] => some []
  | p :: ps => do pure ((← interpPoly? ns p) :: (← mapPolys? ns ps))

mutual

/-- grid.rs: Grid::interpolate_geom, with the bounds-checked point
interpolator so that `none` models a panic on an out-of-zone vertex.  The
Rect arm models geo_types Rect::new, which renormalizes the two corners
componentwise. -/
def interpGeom? (ns : NodeSet) : Geometry → Option Geometry
  | .point p => (ns.interp_point? p).map .point
  | .multiPoint ps => (mapPoints? ns ps).map .multiPoint
  | .lineString cs => (mapPoints? ns cs).map .lineString
  | .multiLineString ls => (mapLists? ns ls).map .multiLineString
  | .polygon pg => (interpPoly? ns pg).map .polygon
  | .multiPolygon pgs => (mapPolys? ns pgs).map .multiPolygon
  | .geometryCollection gs => (interpGeoms? ns gs).map .geometryCollection
  | .line s e => do pure (.line (← ns.interp_point? s) (← ns.interp_point? e))
  | .triangle p q r => do
    pure (.triangle (← ns.interp_point? p) (← ns.interp_point? q) (← ns.interp_point? r))
  | .rect rmin rmax => do
    let a ← ns.interp_point? rmin
    let b ← ns.interp_point? rmax
    pure (.rect ⟨min a.x b.x, min a.y b.y⟩ ⟨max a.x b.x, max a.y b.y⟩)

def interpGeoms? (ns : NodeSet) : List Geometry → Option (List Geometry)
  | [] => some []
  | g :: gs => do pure ((← interpGeom? ns g) :: (← interpGeoms? ns gs))

end

/-- grid.rs: Grid::interpolate_layer.  The outer `Except` is the explicit
error path (`GeometriesNotInBBox`); the inner `Option` models the panic of
an unguarded node lookup while interpolating vertices (`none` = panic). -/
def Grid.interpolate_layer (g : Grid) (geometries : List Geometry) :
    Except Error (Option (List Geometry)) :=
  let bbox := from_geometries geometries
  if ¬ g.bbox.contains_ebbox bbox then .error .GeometriesNotInBBox
  else .ok (interpGeoms? g.nodes geometries)

/-! ## Specification-side definitions

These follow the wording of the specification (not the source) and are
compared against the source embeddings in refinement theorems. -/

/-- Spec §4.2 (claim C6), following the spec's words: the smoothing kernel as
the 12-neighbour stencil `(8·(N+S+W+E) − 2·(NW+SW+SE+NE) − (NN+SS+WW+EE))/20`
in the interior, and on the boundary the average of the existing 4-connected
neighbours, a signed phantom displacement of `resolution·scale` per missing
cardinal neighbour being added to the sum but not counted in the divisor. -/
def get_smoothed_spec (ns : NodeSet) (i j : ℕ) (scale_x scale_y : ℚ) : Coord :=
  let interpAt := fun (a b : ℕ) => (ns.get_node a b).interp
  if 1 < i ∧ 1 < j ∧ i < ns.height - 2 ∧ j < ns.width - 2 then
    let cardinal := [interpAt (i - 1) j, interpAt (i + 1) j, interpAt i (j - 1),
      interpAt i (j + 1)]
    let diagonal := [interpAt (i - 1) (j - 1), interpAt (i + 1) (j - 1),
      interpAt (i + 1) (j + 1), interpAt (i - 1) (j + 1)]
    let far := [interpAt (i - 2) j, interpAt (i + 2) j, interpAt i (j - 2),
      interpAt i (j + 2)]
    ⟨(8 * (cardinal.map (·.x)).sum - 2 * (diagonal.map (·.x)).sum
        - (far.map (·.x)).sum) / 20,
      (8 * (cardinal.map (·.y)).sum - 2 * (diagonal.map (·.y)).sum
        - (far.map (·.y)).sum) / 20⟩
  else
    let real :=
      (if 0 < i then [interpAt (i - 1) j] else [])
        ++ (if 0 < j then [interpAt i (j - 1)] else [])
        ++ (if i < ns.height - 1 then [interpAt (i + 1) j] else [])
        ++ (if j < ns.width - 1 then [interpAt i (j + 1)] else [])
    let phantom_x : ℚ :=
      (if 0 < j then 0 else -(ns.resolution * scale_x))
        + (if j < ns.width - 1 then 0 else ns.resolution * scale_x)
    let phantom_y : ℚ :=
      (if 0 < i then 0 else ns.resolution * scale_y)
        + (if i < ns.height - 1 then 0 else -(ns.resolution * scale_y))
    ⟨((real.map (·.x)).sum + phantom_x) / (real.length : ℚ),
      ((real.map (·.y)).sum + phantom_y) / (real.length : ℚ)⟩

/-- Spec (claim C1 wording): the x-scale as the width of the tight bounding
box of the image points divided by the width of the tight bounding box of
the source points (`Rectangle2D.from_points` is the tight box of a
non-empty list). -/
def tight_scale_x (points image_points : List Coord) : ℚ :=
  (Rectangle2D.from_points image_points).width / (Rectangle2D.from_points points).width

/-- Spec (claim C1 wording): height-wise analog of `tight_scale_x`. -/
def tight_scale_y (points image_points : List Coord) : ℚ :=
  (Rectangle2D.from_points image_points).height / (Rectangle2D.from_points points).height

/-- Closed-interval membership of a point in a rectangle (the zone reading
of `BBox.contains`). -/
def Rectangle2D.containsPt (r : Rectangle2D) (p : Coord) : Prop :=
  r.x ≤ p.x ∧ p.x ≤ r.x + r.width ∧ r.y ≤ p.y ∧ p.y ≤ r.y + r.height

/-- A caller-supplied bbox is well-formed when its min corner is ≤ its max
corner on both axes (the stated BBox invariant). -/
def wfOptBBox (bbox : Option BBox) : Prop :=
  ∀ b ∈ bbox, b.xmin ≤ b.xmax ∧ b.ymin ≤ b.ymax

/-- The horizontal padding `width*resolution − zone.width` computed by
NodeSet::new before the final width increment (node.rs line 63 with
`width = ceil(zone.width/resolution)+1`). -/
def padX (z0 : Rectangle2D) (res : ℚ) : ℚ :=
  (((⌈z0.width / res⌉).toNat : ℚ) + 1) * res - z0.width

/-- Vertical analog of `padX` (node.rs line 64). -/
def padY (z0 : Rectangle2D) (res : ℚ) : ℚ :=
  (((⌈z0.height / res⌉).toNat : ℚ) + 1) * res - z0.height

/-- All NodeSet components except the node records themselves: zone,
resolution, lattice dimensions and node-vector length.  Solver steps and
weight seeding leave this unchanged (frame lemmas below). -/
def nsMeta (ns : NodeSet) : Rectangle2D × ℚ × ℕ × ℕ × ℕ :=
  (ns.zone, ns.resolution, ns.width, ns.height, ns.nodes.length)

/-- Source position and weight of the node at flat index `idx`: the part of
a node record that the solver iteration never writes. -/
def swAt (idx : ℕ) (ns : NodeSet) : Coord × ℚ :=
  ((ns.nodes.getD idx default).source, (ns.nodes.getD idx default).weight)

/-- Weight of the node at flat index `idx`. -/
def weightAt (idx : ℕ) (ns : NodeSet) : ℚ :=
  (ns.nodes.getD idx default).weight

/-- Source position of the node at flat index `idx`. -/
def sourceAt (idx : ℕ) (ns : NodeSet) : Coord :=
  (ns.nodes.getD idx default).source

/-! ## Lattice geometry lemmas -/

theorem flatRange_length {α : Type} (h w : ℕ) (f : ℕ → ℕ → α) :
    ((List.range h).flatMap fun i => (List.range w).map (f i)).length = h * w := by
  induction h with
  | zero => simp
  | succ h ih =>
    rw [List.range_succ, List.flatMap_append, List.length_append, ih]
    simp [Nat.succ_mul]

theorem flatRange_getD {α : Type} [Inhabited α] (h w : ℕ) (f : ℕ → ℕ → α) (i j : ℕ)
    (hi : i < h) (hj : j < w) :
    ((List.range h).flatMap fun i => (List.range w).map (f i)).getD (i * w + j) default
      = f i j := by
  induction h with
  | zero => omega
  | succ h ih =>
    rw [List.range_succ, List.flatMap_append]
    rcases Nat.lt_or_ge i h with hih | hih
    · rw [List.getD_append _ _ _ _
        (by rw [flatRange_length]
            calc i * w + j < i * w + w := by omega
              _ = (i + 1) * w := by ring
              _ ≤ h * w := Nat.mul_le_mul_right w hih)]
      exact ih hih
    · have hieq : i = h := by omega
      subst hieq
      rw [List.getD_append_right _ _ _ _ (by rw [flatRange_length]; exact Nat.le_add_right _ _)]
      rw [flatRange_length]
      simp only [List.flatMap_cons, List.flatMap_nil, List.append_nil,
        Nat.add_sub_cancel_left]
      rw [List.getD_eq_getElem _ _ (by simpa using hj)]
      simp

theorem padX_ge (z0 : Rectangle2D) (res : ℚ) (hres : 0 < res) (hw : 0 ≤ z0.width) :
    res ≤ padX z0 res := by
  have h0 : (0:ℤ) ≤ ⌈z0.width / res⌉ := Int.ceil_nonneg (div_nonneg hw hres.le)
  have h1 : z0.width / res ≤ ((⌈z0.width / res⌉).toNat : ℚ) := by
    calc z0.width / res ≤ (⌈z0.width / res⌉ : ℚ) := Int.le_ceil _
      _ = ((⌈z0.width / res⌉).toNat : ℚ) := by
        exact_mod_cast (congrArg (fun z : ℤ => (z : ℚ)) (Int.toNat_of_nonneg h0)).symm
  have h2 : z0.width ≤ ((⌈z0.width / res⌉).toNat : ℚ) * res := by
    have := mul_le_mul_of_nonneg_right h1 hres.le
    rwa [div_mul_cancel₀ _ (ne_of_gt hres)] at this
  unfold padX
  nlinarith

theorem padY_ge (z0 : Rectangle2D) (res : ℚ) (hres : 0 < res) (hh : 0 ≤ z0.height) :
    res ≤ padY z0 res := by
  have h0 : (0:ℤ) ≤ ⌈z0.height / res⌉ := Int.ceil_nonneg (div_nonneg hh hres.le)
  have h1 : z0.height / res ≤ ((⌈z0.height / res⌉).toNat : ℚ) := by
    calc z0.height / res ≤ (⌈z0.height / res⌉ : ℚ) := Int.le_ceil _
      _ = ((⌈z0.height / res⌉).toNat : ℚ) := by
        exact_mod_cast (congrArg (fun z : ℤ => (z : ℚ)) (Int.toNat_of_nonneg h0)).symm
  have h2 : z0.height ≤ ((⌈z0.height / res⌉).toNat : ℚ) * res := by
    have := mul_le_mul_of_nonneg_right h1 hres.le
    rwa [div_mul_cancel₀ _ (ne_of_gt hres)] at this
  unfold padY
  nlinarith

theorem build_zone_eq (z0 : Rectangle2D) (res : ℚ) (hres : 0 < res) :
    (NodeSet.build z0 res).zone =
      ⟨z0.x - padX z0 res / 2, z0.y - padY z0 res / 2,
        z0.height + padY z0 res, z0.width + padX z0 res⟩ := by
  unfold NodeSet.build Rectangle2D.set_rect_from_center Rectangle2D.center_x
    Rectangle2D.center_y Rectangle2D.min_x Rectangle2D.min_y padX padY
  have htw : (0:ℚ) ≤ ((⌈z0.width / res⌉).toNat : ℚ) := by positivity
  have hth : (0:ℚ) ≤ ((⌈z0.height / res⌉).toNat : ℚ) := by positivity
  simp only [Rectangle2D.mk.injEq]
  push_cast
  refine ⟨?_, ?_, ?_, ?_⟩
  · rw [show z0.x - ((((⌈z0.width / res⌉).toNat : ℚ) + 1) * res - z0.width) / 2
        - (z0.x + z0.width / 2) = -((((⌈z0.width / res⌉).toNat : ℚ) + 1) * res / 2) by ring,
      abs_neg, abs_of_nonneg (by positivity)]
    ring
  · rw [show z0.y - ((((⌈z0.height / res⌉).toNat : ℚ) + 1) * res - z0.height) / 2
        - (z0.y + z0.height / 2) = -((((⌈z0.height / res⌉).toNat : ℚ) + 1) * res / 2) by ring,
      abs_neg, abs_of_nonneg (by positivity)]
    ring
  · rw [show z0.y - ((((⌈z0.height / res⌉).toNat : ℚ) + 1) * res - z0.height) / 2
        - (z0.y + z0.height / 2) = -((((⌈z0.height / res⌉).toNat : ℚ) + 1) * res / 2) by ring,
      abs_neg, abs_of_nonneg (by positivity)]
    ring
  · rw [show z0.x - ((((⌈z0.width / res⌉).toNat : ℚ) + 1) * res - z0.width) / 2
        - (z0.x + z0.width / 2) = -((((⌈z0.width / res⌉).toNat : ℚ) + 1) * res / 2) by ring,
      abs_neg, abs_of_nonneg (by positivity)]
    ring

theorem build_width_eq (z0 : Rectangle2D) (res : ℚ) :
    (NodeSet.build z0 res).width = (⌈z0.width / res⌉).toNat + 2 := rfl

theorem build_height_eq (z0 : Rectangle2D) (res : ℚ) :
    (NodeSet.build z0 res).height = (⌈z0.height / res⌉).toNat + 2 := rfl

theorem build_resolution_eq (z0 : Rectangle2D) (res : ℚ) :
    (NodeSet.build z0 res).resolution = res := rfl

theorem build_nodes_length (z0 : Rectangle2D) (res : ℚ) :
    (NodeSet.build z0 res).nodes.length
      = (NodeSet.build z0 res).height * (NodeSet.build z0 res).width :=
  flatRange_length _ _ _

theorem build_get_node (z0 : Rectangle2D) (res : ℚ) (i j : ℕ)
    (hi : i < (NodeSet.build z0 res).height) (hj : j < (NodeSet.build z0 res).width) :
    (NodeSet.build z0 res).get_node i j =
      Node.new i j ⟨(NodeSet.build z0 res).zone.x + (j : ℚ) * res,
        (NodeSet.build z0 res).zone.max_y - (i : ℚ) * res⟩ := by
  unfold NodeSet.get_node
  exact flatRange_getD _ _ _ i j hi hj

/-! ## Rectangle containment lemmas -/

theorem add_width_nonneg (r : Rectangle2D) (p : Coord) (hw : 0 ≤ r.width) :
    0 ≤ (r.add p).width := by
  unfold Rectangle2D.add
  dsimp only
  split_ifs <;> (try simp) <;> linarith

theorem add_height_nonneg (r : Rectangle2D) (p : Coord) (hh : 0 ≤ r.height) :
    0 ≤ (r.add p).height := by
  unfold Rectangle2D.add
  dsimp only
  split_ifs <;> (try simp) <;> linarith

theorem add_containsPt_self (r : Rectangle2D) (p : Coord) (hw : 0 ≤ r.width)
    (hh : 0 ≤ r.height) : (r.add p).containsPt p := by
  unfold Rectangle2D.add Rectangle2D.containsPt
  dsimp only
  split_ifs <;> refine ⟨?_, ?_, ?_, ?_⟩ <;> (try simp) <;> linarith

theorem add_containsPt_mono (r : Rectangle2D) (p q : Coord) (h : r.containsPt q) :
    (r.add p).containsPt q := by
  unfold Rectangle2D.containsPt at h
  obtain ⟨h1, h2, h3, h4⟩ := h
  unfold Rectangle2D.add Rectangle2D.containsPt
  dsimp only
  split_ifs <;> refine ⟨?_, ?_, ?_, ?_⟩ <;> (try simp) <;> linarith

theorem foldl_add_mono (points : List Coord) (r0 : Rectangle2D) (q : Coord)
    (h : r0.containsPt q) : (points.foldl Rectangle2D.add r0).containsPt q := by
  induction points generalizing r0 with
  | nil => exact h
  | cons p rest ih => exact ih _ (add_containsPt_mono r0 p q h)

theorem foldl_add_width_nonneg (points : List Coord) (r0 : Rectangle2D)
    (hw : 0 ≤ r0.width) : 0 ≤ (points.foldl Rectangle2D.add r0).width := by
  induction points generalizing r0 with
  | nil => exact hw
  | cons p rest ih => exact ih _ (add_width_nonneg r0 p hw)

theorem foldl_add_height_nonneg (points : List Coord) (r0 : Rectangle2D)
    (hh : 0 ≤ r0.height) : 0 ≤ (points.foldl Rectangle2D.add r0).height := by
  induction points generalizing r0 with
  | nil => exact hh
  | cons p rest ih => exact ih _ (add_height_nonneg r0 p hh)

theorem foldl_add_contains (points : List Coord) (r0 : Rectangle2D)
    (hw : 0 ≤ r0.width) (hh : 0 ≤ r0.height) (p : Coord) (hp : p ∈ points) :
    (points.foldl Rectangle2D.add r0).containsPt p := by
  induction points generalizing r0 with
  | nil => cases hp
  | cons q rest ih =>
    rcases List.mem_cons.1 hp with rfl | hp
    · exact foldl_add_mono rest _ p (add_containsPt_self r0 p hw hh)
    · exact ih _ (add_width_nonneg r0 q hw) (add_height_nonneg r0 q hh) hp

theorem from_points_contains (points : List Coord) (p : Coord) (hp : p ∈ points) :
    (Rectangle2D.from_points points).containsPt p := by
  cases points with
  | nil => cases hp
  | cons q rest =>
    unfold Rectangle2D.from_points
    rcases List.mem_cons.1 hp with rfl | hp
    · refine foldl_add_mono rest _ p ?_
      unfold Rectangle2D.containsPt Rectangle2D.new
      refine ⟨le_refl _, ?_, le_refl _, ?_⟩ <;> simp
    · exact foldl_add_contains rest _ (by simp [Rectangle2D.new]) (by simp [Rectangle2D.new]) p hp

theorem from_points_width_nonneg (points : List Coord) :
    0 ≤ (Rectangle2D.from_points points).width := by
  cases points with
  | nil => simp [Rectangle2D.from_points, Rectangle2D.new]
  | cons q rest => exact foldl_add_width_nonneg rest _ (by simp [Rectangle2D.new])

theorem from_points_height_nonneg (points : List Coord) :
    0 ≤ (Rectangle2D.from_points points).height := by
  cases points with
  | nil => simp [Rectangle2D.from_points, Rectangle2D.new]
  | cons q rest => exact foldl_add_height_nonneg rest _ (by simp [Rectangle2D.new])

theorem initialZone_contains (points : List Coord) (bbox : Option BBox)
    (hb : wfOptBBox bbox) (p : Coord) (hp : p ∈ points) :
    (initialZone points bbox).containsPt p := by
  cases bbox with
  | none => exact from_points_contains points p hp
  | some b =>
    have hwf := hb b rfl
    exact foldl_add_contains points _
      (by simp only [Rectangle2D.from_bbox]; linarith [hwf.1])
      (by simp only [Rectangle2D.from_bbox]; linarith [hwf.2]) p hp

theorem initialZone_width_nonneg (points : List Coord) (bbox : Option BBox)
    (hb : wfOptBBox bbox) : 0 ≤ (initialZone points bbox).width := by
  cases bbox with
  | none => exact from_points_width_nonneg points
  | some b =>
    exact foldl_add_width_nonneg points _
      (by simp only [Rectangle2D.from_bbox]; linarith [(hb b rfl).1])

theorem initialZone_height_nonneg (points : List Coord) (bbox : Option BBox)
    (hb : wfOptBBox bbox) : 0 ≤ (initialZone points bbox).height := by
  cases bbox with
  | none => exact from_points_height_nonneg points
  | some b =>
    exact foldl_add_height_nonneg points _
      (by simp only [Rectangle2D.from_bbox]; linarith [(hb b rfl).2])

theorem build_strict_contains (z0 : Rectangle2D) (res : ℚ) (hres : 0 < res)
    (hw : 0 ≤ z0.width) (hh : 0 ≤ z0.height) (p : Coord) (hp : z0.containsPt p) :
    (NodeSet.build z0 res).zone.x < p.x
    ∧ p.x < (NodeSet.build z0 res).zone.x + (NodeSet.build z0 res).zone.width
    ∧ (NodeSet.build z0 res).zone.y < p.y
    ∧ p.y < (NodeSet.build z0 res).zone.y + (NodeSet.build z0 res).zone.height := by
  rw [build_zone_eq z0 res hres]
  obtain ⟨h1, h2, h3, h4⟩ := hp
  have hdx := padX_ge z0 res hres hw
  have hdy := padY_ge z0 res hres hh
  refine ⟨?_, ?_, ?_, ?_⟩ <;> simp only [] <;> linarith

/-! ## Frame lemmas: solver steps touch only the `interp` field -/

theorem foldl_preserve_meas {α γ β : Type} (m : α → β) (step : α → γ → α)
    (h : ∀ a c, m (step a c) = m a) (l : List γ) (a : α) :
    m (l.foldl step a) = m a := by
  induction l generalizing a with
  | nil => rfl
  | cons c rest ih => rw [List.foldl_cons, ih, h]

theorem getD_set_ne {α : Type} [Inhabited α] (l : List α) (i j : ℕ) (a : α)
    (h : i ≠ j) : (l.set i a).getD j default = l.getD j default := by
  simp [List.getD_eq_getElem?_getD, List.getElem?_set_ne h]

theorem getD_set_self {α : Type} [Inhabited α] (l : List α) (i : ℕ) (a : α)
    (h : i < l.length) : (l.set i a).getD i default = a := by
  simp [List.getD_eq_getElem?_getD, List.getElem?_set_self', h]

theorem modifyNode_meta (ns : NodeSet) (i j : ℕ) (f : Node → Node) :
    nsMeta (ns.modifyNode i j f) = nsMeta ns := by
  unfold nsMeta NodeSet.modifyNode
  simp [List.length_set]

theorem modifyNode_width (ns : NodeSet) (i j : ℕ) (f : Node → Node) :
    (ns.modifyNode i j f).width = ns.width := rfl

theorem modifyNode_length (ns : NodeSet) (i j : ℕ) (f : Node → Node) :
    (ns.modifyNode i j f).nodes.length = ns.nodes.length := by
  unfold NodeSet.modifyNode
  simp [List.length_set]

theorem modifyNode_getD_pres {β : Type} (g : Node → β) (ns : NodeSet) (i j : ℕ)
    (f : Node → Node) (hf : ∀ nd, g (f nd) = g nd) (idx : ℕ) :
    g ((ns.modifyNode i j f).nodes.getD idx default) = g (ns.nodes.getD idx default) := by
  unfold NodeSet.modifyNode
  dsimp only
  by_cases hidx : idx = i * ns.width + j
  · rcases Nat.lt_or_ge (i * ns.width + j) ns.nodes.length with hlen | hlen
    · rw [hidx, getD_set_self _ _ _ hlen]
      exact hf _
    · rw [List.set_eq_of_length_le hlen]
  · rw [getD_set_ne _ _ _ _ fun hh => hidx hh.symm]

theorem modifyNode_swAt (ns : NodeSet) (i j : ℕ) (f : Node → Node)
    (hf : ∀ nd, (f nd).source = nd.source ∧ (f nd).weight = nd.weight) (idx : ℕ) :
    swAt idx (ns.modifyNode i j f) = swAt idx ns := by
  unfold swAt
  rw [modifyNode_getD_pres (fun nd => nd.source) ns i j f (fun nd => (hf nd).1) idx,
    modifyNode_getD_pres (fun nd => nd.weight) ns i j f (fun nd => (hf nd).2) idx]

theorem update_adjacent_node_meta (ns : NodeSet) (p : Coord) (k : ℕ)
    (f : Node → Node) : nsMeta (ns.update_adjacent_node p k f) = nsMeta ns := by
  unfold NodeSet.update_adjacent_node
  exact modifyNode_meta ns _ _ f

theorem update_adjacent_node_swAt (ns : NodeSet) (p : Coord) (k : ℕ)
    (f : Node → Node)
    (hf : ∀ nd, (f nd).source = nd.source ∧ (f nd).weight = nd.weight) (idx : ℕ) :
    swAt idx (ns.update_adjacent_node p k f) = swAt idx ns := by
  unfold NodeSet.update_adjacent_node
  exact modifyNode_swAt ns _ _ f hf idx

theorem update_interp_swAt (ns : NodeSet) (p : Coord) (k : ℕ) (g : Node → Coord)
    (idx : ℕ) :
    swAt idx (ns.update_adjacent_node p k fun n => { n with interp := g n })
      = swAt idx ns :=
  update_adjacent_node_swAt ns p k (fun n => { n with interp := g n })
    (fun _ => ⟨rfl, rfl⟩) idx

theorem modify_interp_swAt (ns : NodeSet) (i j : ℕ) (g : Node → Coord) (idx : ℕ) :
    swAt idx (ns.modifyNode i j fun n => { n with interp := g n }) = swAt idx ns :=
  modifyNode_swAt ns i j (fun n => { n with interp := g n }) (fun _ => ⟨rfl, rfl⟩) idx

theorem modify_weight_sourceAt (ns : NodeSet) (i j : ℕ) (g : Node → ℚ) (idx : ℕ) :
    ((ns.modifyNode i j fun n => { n with weight := g n }).nodes.getD idx default).source
      = (ns.nodes.getD idx default).source :=
  modifyNode_getD_pres (fun nd => nd.source) ns i j
    (fun n => { n with weight := g n }) (fun _ => rfl) idx

theorem phase1Pair_meta (res sx sy : ℚ) (ns : NodeSet) (pr : Coord × Coord) :
    nsMeta (phase1Pair res sx sy ns pr) = nsMeta ns := by
  unfold phase1Pair
  dsimp only
  rw [update_adjacent_node_meta, update_adjacent_node_meta, update_adjacent_node_meta,
    update_adjacent_node_meta]

theorem phase1Pair_swAt (res sx sy : ℚ) (ns : NodeSet) (pr : Coord × Coord) (idx : ℕ) :
    swAt idx (phase1Pair res sx sy ns pr) = swAt idx ns := by
  unfold phase1Pair
  dsimp only
  rw [update_interp_swAt, update_interp_swAt, update_interp_swAt, update_interp_swAt]

theorem phase2Visit_meta (sx sy : ℚ) (rd : ℕ) (acc : NodeSet × ℚ) (ij : ℕ × ℕ) :
    nsMeta (phase2Visit sx sy rd acc ij).1 = nsMeta acc.1 := by
  unfold phase2Visit
  dsimp only
  split_ifs
  · exact modifyNode_meta acc.1 _ _ _
  · rfl

theorem phase2Visit_swAt (sx sy : ℚ) (rd : ℕ) (acc : NodeSet × ℚ) (ij : ℕ × ℕ)
    (idx : ℕ) : swAt idx (phase2Visit sx sy rd acc ij).1 = swAt idx acc.1 := by
  unfold phase2Visit
  dsimp only
  split_ifs
  · exact modify_interp_swAt acc.1 _ _ _ idx
  · rfl

theorem phase2Sweep_meta (sx sy : ℚ) (rd : ℕ) (ns : NodeSet) :
    nsMeta (phase2Sweep sx sy rd ns).1 = nsMeta ns :=
  foldl_preserve_meas (fun acc => nsMeta acc.1) (phase2Visit sx sy rd)
    (fun a c => phase2Visit_meta sx sy rd a c) _ (ns, 0)

theorem phase2Sweep_swAt (sx sy : ℚ) (rd : ℕ) (ns : NodeSet) (idx : ℕ) :
    swAt idx (phase2Sweep sx sy rd ns).1 = swAt idx ns :=
  foldl_preserve_meas (fun acc => swAt idx acc.1) (phase2Visit sx sy rd)
    (fun a c => phase2Visit_swAt sx sy rd a c idx) _ (ns, 0)

theorem phase2Go_meta (f : ℚ → ℚ) (sx sy : ℚ) (rd : ℕ) (fuel l : ℕ) (ns : NodeSet) :
    nsMeta (phase2Go f sx sy rd fuel l ns) = nsMeta ns := by
  induction fuel generalizing l ns with
  | zero => rfl
  | succ fuel ih =>
    unfold phase2Go
    dsimp only
    split_ifs
    · exact phase2Sweep_meta sx sy rd ns
    · rw [ih, phase2Sweep_meta]

theorem phase2Go_swAt (f : ℚ → ℚ) (sx sy : ℚ) (rd : ℕ) (fuel l : ℕ) (ns : NodeSet)
    (idx : ℕ) : swAt idx (phase2Go f sx sy rd fuel l ns) = swAt idx ns := by
  induction fuel generalizing l ns with
  | zero => rfl
  | succ fuel ih =>
    unfold phase2Go
    dsimp only
    split_ifs
    · exact phase2Sweep_swAt sx sy rd ns idx
    · rw [ih, phase2Sweep_swAt]

theorem solverPass_meta (f : ℚ → ℚ) (res sx sy : ℚ) (rd : ℕ)
    (pairs : List (Coord × Coord)) (ns : NodeSet) :
    nsMeta (solverPass f res sx sy rd pairs ns) = nsMeta ns := by
  unfold solverPass
  dsimp only
  rw [phase2Go_meta]
  exact foldl_preserve_meas nsMeta (phase1Pair res sx sy)
    (fun a c => phase1Pair_meta res sx sy a c) pairs ns

theorem solverPass_swAt (f : ℚ → ℚ) (res sx sy : ℚ) (rd : ℕ)
    (pairs : List (Coord × Coord)) (ns : NodeSet) (idx : ℕ) :
    swAt idx (solverPass f res sx sy rd pairs ns) = swAt idx ns := by
  unfold solverPass
  dsimp only
  rw [phase2Go_swAt]
  exact foldl_preserve_meas (swAt idx) (phase1Pair res sx sy)
    (fun a c => phase1Pair_swAt res sx sy a c idx) pairs ns

theorem solverIter_meta (f : ℚ → ℚ) (res sx sy : ℚ) (rd : ℕ)
    (pairs : List (Coord × Coord)) (n : ℕ) (ns : NodeSet) :
    nsMeta (solverIter f res sx sy rd pairs n ns) = nsMeta ns := by
  induction n generalizing ns with
  | zero => rfl
  | succ n ih =>
    unfold solverIter
    rw [ih, solverPass_meta]

theorem solverIter_swAt (f : ℚ → ℚ) (res sx sy : ℚ) (rd : ℕ)
    (pairs : List (Coord × Coord)) (n : ℕ) (ns : NodeSet) (idx : ℕ) :
    swAt idx (solverIter f res sx sy rd pairs n ns) = swAt idx ns := by
  induction n generalizing ns with
  | zero => rfl
  | succ n ih =>
    unfold solverIter
    rw [ih, solverPass_swAt]

theorem set_weight_meta (ns : NodeSet) (p : Coord) (v : ℚ) :
    nsMeta (ns.set_weight_adjacent_nodes p v) = nsMeta ns := by
  unfold NodeSet.set_weight_adjacent_nodes
  dsimp only
  rw [modifyNode_meta, modifyNode_meta, modifyNode_meta, modifyNode_meta]

theorem set_weight_sourceAt (ns : NodeSet) (p : Coord) (v : ℚ) (idx : ℕ) :
    sourceAt idx (ns.set_weight_adjacent_nodes p v) = sourceAt idx ns := by
  unfold NodeSet.set_weight_adjacent_nodes
  dsimp only
  unfold sourceAt
  rw [modify_weight_sourceAt, modify_weight_sourceAt, modify_weight_sourceAt,
    modify_weight_sourceAt]

theorem seedWeights_meta (ns : NodeSet) (points : List Coord) :
    nsMeta (seedWeights ns points) = nsMeta ns :=
  foldl_preserve_meas nsMeta _ (fun a c => set_weight_meta a c 1) points ns

theorem seedWeights_sourceAt (ns : NodeSet) (points : List Coord) (idx : ℕ) :
    sourceAt idx (seedWeights ns points) = sourceAt idx ns :=
  foldl_preserve_meas (sourceAt idx) _ (fun a c => set_weight_sourceAt a c 1 idx) points ns

theorem grid_of_nodes_meta (s im : List Coord) (prec : ℚ) (n : ℕ) (b : Option BBox)
    (f : ℚ → ℚ) :
    nsMeta (grid_of s im prec n b f).nodes = nsMeta (NodeSet.new s prec b f) := by
  unfold grid_of Grid.interpolate
  dsimp only
  rw [solverIter_meta, seedWeights_meta]

theorem grid_of_swAt (s im : List Coord) (prec : ℚ) (n : ℕ) (b : Option BBox)
    (f : ℚ → ℚ) (idx : ℕ) :
    swAt idx (grid_of s im prec n b f).nodes = swAt idx (seedWeights (NodeSet.new s prec b f) s) := by
  unfold grid_of Grid.interpolate
  dsimp only
  rw [solverIter_swAt]

theorem grid_of_sourceAt (s im : List Coord) (prec : ℚ) (n : ℕ) (b : Option BBox)
    (f : ℚ → ℚ) (idx : ℕ) :
    sourceAt idx (grid_of s im prec n b f).nodes = sourceAt idx (NodeSet.new s prec b f) := by
  have h1 := grid_of_swAt s im prec n b f idx
  have h2 := seedWeights_sourceAt (NodeSet.new s prec b f) s idx
  unfold swAt at h1
  unfold sourceAt at h2 ⊢
  exact ((Prod.ext_iff.mp h1).1).trans h2

/-! ## Claim C4 -/

theorem modify_weight_mono (ns : NodeSet) (i j : ℕ) (g : Node → ℚ)
    (hg : ∀ nd : Node, nd.weight ≤ (g nd)) (idx : ℕ) :
    weightAt idx ns ≤ weightAt idx (ns.modifyNode i j fun n => { n with weight := g n }) := by
  unfold weightAt NodeSet.modifyNode
  dsimp only
  by_cases hidx : idx = i * ns.width + j
  · rcases Nat.lt_or_ge (i * ns.width + j) ns.nodes.length with hlen | hlen
    · rw [hidx, getD_set_self _ _ _ hlen]
      exact hg _
    · rw [List.set_eq_of_length_le hlen]
  · rw [getD_set_ne _ _ _ _ fun hh => hidx hh.symm]

theorem modify_weight_addD (ns : NodeSet) (i j : ℕ) (v : ℚ)
    (h : i * ns.width + j < ns.nodes.length) :
    weightAt (i * ns.width + j) (ns.modifyNode i j fun n => { n with weight := n.weight + v })
      = weightAt (i * ns.width + j) ns + v := by
  unfold weightAt NodeSet.modifyNode
  dsimp only
  rw [getD_set_self _ _ _ h]

theorem set_weight_length (ns : NodeSet) (p : Coord) (v : ℚ) :
    (ns.set_weight_adjacent_nodes p v).nodes.length = ns.nodes.length :=
  congrArg (fun m => m.2.2.2.2) (set_weight_meta ns p v)

theorem set_weight_mono (ns : NodeSet) (p : Coord) (v : ℚ) (hv : 0 ≤ v) (idx : ℕ) :
    weightAt idx ns ≤ weightAt idx (ns.set_weight_adjacent_nodes p v) := by
  unfold NodeSet.set_weight_adjacent_nodes
  dsimp only
  have hg : ∀ nd : Node, nd.weight ≤ nd.weight + v := fun nd => by linarith
  exact le_trans (modify_weight_mono _ _ _ _ hg idx)
    (le_trans (modify_weight_mono _ _ _ _ hg idx)
      (le_trans (modify_weight_mono _ _ _ _ hg idx)
        (modify_weight_mono _ _ _ _ hg idx)))

theorem seedWeights_mono (points : List Coord) (ns : NodeSet) (idx : ℕ) :
    weightAt idx ns ≤ weightAt idx (seedWeights ns points) := by
  induction points generalizing ns with
  | nil => exact le_refl _
  | cons q rest ih =>
    exact le_trans (set_weight_mono ns q 1 (by norm_num) idx) (ih _)

theorem set_weight_targets (ns : NodeSet) (p : Coord) (v : ℚ)
    (h0 : ns.get_i p * ns.width + ns.get_j p < ns.nodes.length)
    (h1 : ns.get_i p * ns.width + (ns.get_j p + 1) < ns.nodes.length)
    (h2 : (ns.get_i p + 1) * ns.width + ns.get_j p < ns.nodes.length)
    (h3 : (ns.get_i p + 1) * ns.width + (ns.get_j p + 1) < ns.nodes.length)
    (hv : 0 ≤ v) :
    weightAt (ns.get_i p * ns.width + ns.get_j p) ns + v
      ≤ weightAt (ns.get_i p * ns.width + ns.get_j p) (ns.set_weight_adjacent_nodes p v)
    ∧ weightAt (ns.get_i p * ns.width + (ns.get_j p + 1)) ns + v
      ≤ weightAt (ns.get_i p * ns.width + (ns.get_j p + 1)) (ns.set_weight_adjacent_nodes p v)
    ∧ weightAt ((ns.get_i p + 1) * ns.width + ns.get_j p) ns + v
      ≤ weightAt ((ns.get_i p + 1) * ns.width + ns.get_j p) (ns.set_weight_adjacent_nodes p v)
    ∧ weightAt ((ns.get_i p + 1) * ns.width + (ns.get_j p + 1)) ns + v
      ≤ weightAt ((ns.get_i p + 1) * ns.width + (ns.get_j p + 1)) (ns.set_weight_adjacent_nodes p v) := by
  have hg : ∀ nd : Node, nd.weight ≤ nd.weight + v := fun nd => by linarith
  unfold NodeSet.set_weight_adjacent_nodes
  dsimp only
  set i := ns.get_i p with hidef
  set j := ns.get_j p with hjdef
  set ns1 := ns.modifyNode i j fun n => { n with weight := n.weight + v } with hns1
  set ns2 := ns1.modifyNode i (j + 1) fun n => { n with weight := n.weight + v } with hns2
  set ns3 := ns2.modifyNode (i + 1) j fun n => { n with weight := n.weight + v } with hns3
  have hw1 : ns1.width = ns.width := rfl
  have hw2 : ns2.width = ns.width := rfl
  have hw3 : ns3.width = ns.width := rfl
  have hl1 : ns1.nodes.length = ns.nodes.length := modifyNode_length ns _ _ _
  have hl2 : ns2.nodes.length = ns.nodes.length := by
    rw [hns2, modifyNode_length, hl1]
  have hl3 : ns3.nodes.length = ns.nodes.length := by
    rw [hns3, modifyNode_length, hl2]
  refine ⟨?_, ?_, ?_, ?_⟩
  · calc weightAt (i * ns.width + j) ns + v
        = weightAt (i * ns.width + j) ns1 := (modify_weight_addD ns i j v h0).symm
      _ ≤ weightAt (i * ns.width + j) ns2 := modify_weight_mono _ _ _ _ hg _
      _ ≤ weightAt (i * ns.width + j) ns3 := modify_weight_mono _ _ _ _ hg _
      _ ≤ _ := modify_weight_mono _ _ _ _ hg _
  · calc weightAt (i * ns.width + (j + 1)) ns + v
        ≤ weightAt (i * ns.width + (j + 1)) ns1 + v := by
          have := modify_weight_mono ns i j (fun n => n.weight + v) hg (i * ns.width + (j + 1))
          linarith
      _ = weightAt (i * ns.width + (j + 1)) ns2 := by
          have := modify_weight_addD ns1 i (j + 1) v (by rw [hw1, hl1]; exact h1)
          rw [hns2]
          rw [hw1] at this
          exact this.symm
      _ ≤ weightAt (i * ns.width + (j + 1)) ns3 := modify_weight_mono _ _ _ _ hg _
      _ ≤ _ := modify_weight_mono _ _ _ _ hg _
  · calc weightAt ((i + 1) * ns.width + j) ns + v
        ≤ weightAt ((i + 1) * ns.width + j) ns1 + v := by
          have := modify_weight_mono ns i j (fun n => n.weight + v) hg ((i + 1) * ns.width + j)
          linarith
      _ ≤ weightAt ((i + 1) * ns.width + j) ns2 + v := by
          have := modify_weight_mono ns1 i (j + 1) (fun n => n.weight + v) hg ((i + 1) * ns.width + j)
          linarith
      _ = weightAt ((i + 1) * ns.width + j) ns3 := by
          have := modify_weight_addD ns2 (i + 1) j v (by rw [hw2, hl2]; exact h2)
          rw [hns3]
          rw [hw2] at this
          exact this.symm
      _ ≤ _ := modify_weight_mono _ _ _ _ hg _
  · calc weightAt ((i + 1) * ns.width + (j + 1)) ns + v
        ≤ weightAt ((i + 1) * ns.width + (j + 1)) ns1 + v := by
          have := modify_weight_mono ns i j (fun n => n.weight + v) hg ((i + 1) * ns.width + (j + 1))
          linarith
      _ ≤ weightAt ((i + 1) * ns.width + (j + 1)) ns2 + v := by
          have := modify_weight_mono ns1 i (j + 1) (fun n => n.weight + v) hg ((i + 1) * ns.width + (j + 1))
          linarith
      _ ≤ weightAt ((i + 1) * ns.width + (j + 1)) ns3 + v := by
          have := modify_weight_mono ns2 (i + 1) j (fun n => n.weight + v) hg ((i + 1) * ns.width + (j + 1))
          linarith
      _ = _ := by
          have := modify_weight_addD ns3 (i + 1) (j + 1) v (by rw [hw3, hl3]; exact h3)
          rw [hw3] at this
          exact this.symm

theorem seed_ge_one (points : List Coord) (p : Coord) (i j w L : ℕ)
    (hb0 : i * w + j < L) (hb1 : i * w + (j + 1) < L) (hb2 : (i + 1) * w + j < L)
    (hb3 : (i + 1) * w + (j + 1) < L)
    (ns : NodeSet) (hp : p ∈ points)
    (hi : ns.get_i p = i) (hj : ns.get_j p = j) (hw : ns.width = w)
    (hL : ns.nodes.length = L)
    (hnn : ∀ idx, 0 ≤ weightAt idx ns) :
    1 ≤ weightAt (i * w + j) (seedWeights ns points)
    ∧ 1 ≤ weightAt (i * w + (j + 1)) (seedWeights ns points)
    ∧ 1 ≤ weightAt ((i + 1) * w + j) (seedWeights ns points)
    ∧ 1 ≤ weightAt ((i + 1) * w + (j + 1)) (seedWeights ns points) := by
  induction points generalizing ns with
  | nil => cases hp
  | cons q rest ih =>
    have hunfold : seedWeights ns (q :: rest)
        = seedWeights (ns.set_weight_adjacent_nodes q 1) rest := rfl
    rw [hunfold]
    rcases List.mem_cons.1 hp with rfl | hp'
    · have htargets := set_weight_targets ns p 1
        (by rw [hi, hj, hw, hL]; exact hb0)
        (by rw [hi, hj, hw, hL]; exact hb1)
        (by rw [hi, hj, hw, hL]; exact hb2)
        (by rw [hi, hj, hw, hL]; exact hb3)
        (by norm_num)
      rw [hi, hj, hw] at htargets
      obtain ⟨t0, t1, t2, t3⟩ := htargets
      refine ⟨?_, ?_, ?_, ?_⟩
      · exact le_trans (by have := hnn (i * w + j); linarith) (seedWeights_mono rest _ _)
      · exact le_trans (by have := hnn (i * w + (j + 1)); linarith) (seedWeights_mono rest _ _)
      · exact le_trans (by have := hnn ((i + 1) * w + j); linarith) (seedWeights_mono rest _ _)
      · exact le_trans (by have := hnn ((i + 1) * w + (j + 1)); linarith) (seedWeights_mono rest _ _)
    · exact ih _ hp' hi hj hw ((set_weight_length ns q 1).trans hL)
        (fun idx => le_trans (hnn idx) (set_weight_mono ns q 1 (by norm_num) idx))

theorem build_cell_bounds (z0 : Rectangle2D) (res : ℚ) (hres : 0 < res)
    (hw : 0 ≤ z0.width) (hh : 0 ≤ z0.height) (p : Coord) (hp : z0.containsPt p) :
    (NodeSet.build z0 res).get_i p ≤ (NodeSet.build z0 res).height - 2
    ∧ (NodeSet.build z0 res).get_j p ≤ (NodeSet.build z0 res).width - 2
    ∧ 0 ≤ p.x - ((NodeSet.build z0 res).zone.x + ((NodeSet.build z0 res).get_j p : ℚ) * res)
    ∧ p.x - ((NodeSet.build z0 res).zone.x + ((NodeSet.build z0 res).get_j p : ℚ) * res) < res
    ∧ 0 < p.y - ((NodeSet.build z0 res).zone.max_y - (((NodeSet.build z0 res).get_i p : ℚ) + 1) * res)
    ∧ p.y - ((NodeSet.build z0 res).zone.max_y - (((NodeSet.build z0 res).get_i p : ℚ) + 1) * res) ≤ res := by
  obtain ⟨s1, s2, s3, s4⟩ := build_strict_contains z0 res hres hw hh p hp
  have hzw : (NodeSet.build z0 res).zone.width
      = (((⌈z0.width / res⌉).toNat : ℚ) + 1) * res := by
    rw [build_zone_eq _ _ hres]
    dsimp only
    unfold padX
    ring
  have hzh : (NodeSet.build z0 res).zone.height
      = (((⌈z0.height / res⌉).toNat : ℚ) + 1) * res := by
    rw [build_zone_eq _ _ hres]
    dsimp only
    unfold padY
    ring
  -- abbreviations
  set ns := NodeSet.build z0 res with hnsdef
  set sW := (⌈z0.width / res⌉).toNat with hsW
  set sH := (⌈z0.height / res⌉).toNat with hsH
  have hresolution : ns.resolution = res := rfl
  -- x-direction
  have hbpos : 0 < (p.x - ns.zone.x) / res := div_pos (by linarith) hres
  have hbup : (p.x - ns.zone.x) / res < (sW : ℚ) + 1 := by
    rw [div_lt_iff₀ hres]
    calc p.x - ns.zone.x < ns.zone.width := by linarith
      _ = ((sW : ℚ) + 1) * res := hzw
  have hfj0 : (0:ℤ) ≤ ⌊(p.x - ns.zone.x) / res⌋ := Int.floor_nonneg.mpr hbpos.le
  have hfjlt : ⌊(p.x - ns.zone.x) / res⌋ < (sW : ℤ) + 1 := by
    rw [Int.floor_lt]
    push_cast
    exact hbup
  have hgj : ns.get_j p = (⌊(p.x - ns.zone.x) / res⌋).toNat := rfl
  have hjle : ns.get_j p ≤ sW := by
    rw [hgj]
    omega
  have hjcast : ((ns.get_j p : ℕ) : ℚ) = ((⌊(p.x - ns.zone.x) / res⌋ : ℤ) : ℚ) := by
    rw [hgj]
    exact_mod_cast congrArg (fun z : ℤ => (z : ℚ)) (Int.toNat_of_nonneg hfj0)
  have hxr : p.x - ns.zone.x = (p.x - ns.zone.x) / res * res := by
    field_simp
  -- y-direction
  have hapos : 0 < (ns.zone.max_y - p.y) / res := by
    apply div_pos _ hres
    unfold Rectangle2D.max_y
    linarith
  have haup : (ns.zone.max_y - p.y) / res < (sH : ℚ) + 1 := by
    rw [div_lt_iff₀ hres]
    unfold Rectangle2D.max_y
    calc ns.zone.y + ns.zone.height - p.y < ns.zone.height := by linarith
      _ = ((sH : ℚ) + 1) * res := hzh
  have hfi0 : (0:ℤ) ≤ ⌊(ns.zone.max_y - p.y) / res⌋ := Int.floor_nonneg.mpr hapos.le
  have hfilt : ⌊(ns.zone.max_y - p.y) / res⌋ < (sH : ℤ) + 1 := by
    rw [Int.floor_lt]
    push_cast
    exact haup
  have hgi : ns.get_i p = (⌊(ns.zone.max_y - p.y) / res⌋).toNat := rfl
  have hile : ns.get_i p ≤ sH := by
    rw [hgi]
    omega
  have hicast : ((ns.get_i p : ℕ) : ℚ) = ((⌊(ns.zone.max_y - p.y) / res⌋ : ℤ) : ℚ) := by
    rw [hgi]
    exact_mod_cast congrArg (fun z : ℤ => (z : ℚ)) (Int.toNat_of_nonneg hfi0)
  have hyr : ns.zone.max_y - p.y = (ns.zone.max_y - p.y) / res * res := by
    field_simp
  have hwidth : ns.width = sW + 2 := build_width_eq z0 res
  have hheight : ns.height = sH + 2 := build_height_eq z0 res
  have ex : p.x - (ns.zone.x + ((⌊(p.x - ns.zone.x) / res⌋ : ℤ) : ℚ) * res)
      = ((p.x - ns.zone.x) / res - ((⌊(p.x - ns.zone.x) / res⌋ : ℤ) : ℚ)) * res := by
    rw [sub_mul, div_mul_cancel₀ _ (ne_of_gt hres)]
    ring
  have ey : p.y - (ns.zone.max_y - (((⌊(ns.zone.max_y - p.y) / res⌋ : ℤ) : ℚ) + 1) * res)
      = ((((⌊(ns.zone.max_y - p.y) / res⌋ : ℤ) : ℚ) + 1) - (ns.zone.max_y - p.y) / res) * res := by
    rw [sub_mul, div_mul_cancel₀ _ (ne_of_gt hres)]
    ring
  have hflx1 : ((⌊(p.x - ns.zone.x) / res⌋ : ℤ) : ℚ) ≤ (p.x - ns.zone.x) / res :=
    Int.floor_le _
  have hflx2 : (p.x - ns.zone.x) / res < ((⌊(p.x - ns.zone.x) / res⌋ : ℤ) : ℚ) + 1 :=
    Int.lt_floor_add_one _
  have hfly1 : ((⌊(ns.zone.max_y - p.y) / res⌋ : ℤ) : ℚ) ≤ (ns.zone.max_y - p.y) / res :=
    Int.floor_le _
  have hfly2 : (ns.zone.max_y - p.y) / res < ((⌊(ns.zone.max_y - p.y) / res⌋ : ℤ) : ℚ) + 1 :=
    Int.lt_floor_add_one _
  refine ⟨by omega, by omega, ?_, ?_, ?_, ?_⟩
  · rw [hjcast, ex]
    exact mul_nonneg (by linarith) hres.le
  · rw [hjcast, ex]
    calc ((p.x - ns.zone.x) / res - ((⌊(p.x - ns.zone.x) / res⌋ : ℤ) : ℚ)) * res
        < 1 * res := by
          apply mul_lt_mul_of_pos_right _ hres
          linarith
      _ = res := one_mul res
  · rw [hicast, ey]
    exact mul_pos (by linarith) hres
  · rw [hicast, ey]
    calc ((((⌊(ns.zone.max_y - p.y) / res⌋ : ℤ) : ℚ) + 1) - (ns.zone.max_y - p.y) / res) * res
        ≤ 1 * res := by
          apply mul_le_mul_of_nonneg_right _ hres.le
          linarith
      _ = res := one_mul res

theorem getD_pred {α : Type} [Inhabited α] (l : List α) (P : α → Prop)
    (hall : ∀ a ∈ l, P a) (hd : P default) (idx : ℕ) : P (l.getD idx default) := by
  rcases Nat.lt_or_ge idx l.length with h | h
  · rw [List.getD_eq_getElem _ _ h]
    exact hall _ (List.getElem_mem h)
  · rw [List.getD_eq_default _ _ h]
    exact hd

theorem build_weight_zero (z0 : Rectangle2D) (res : ℚ) (idx : ℕ) :
    weightAt idx (NodeSet.build z0 res) = 0 := by
  unfold weightAt
  refine getD_pred _ (fun nd : Node => nd.weight = 0) ?_ rfl idx
  intro a ha
  have hnodes : (NodeSet.build z0 res).nodes
      = (List.range (NodeSet.build z0 res).height).flatMap fun i =>
          (List.range (NodeSet.build z0 res).width).map fun j =>
            Node.new i j ⟨(NodeSet.build z0 res).zone.min_x + (j : ℚ) * res,
              (NodeSet.build z0 res).zone.max_y - (i : ℚ) * res⟩ := rfl
  rw [hnodes] at ha
  obtain ⟨i, -, hmem2⟩ := List.mem_flatMap.1 ha
  obtain ⟨j, -, heq⟩ := List.mem_map.1 hmem2
  exact (congrArg Node.weight heq).symm

theorem weightAt_eq_swAt_snd (idx : ℕ) (ns : NodeSet) :
    weightAt idx ns = (swAt idx ns).2 := rfl

theorem denom_pos (res t : ℚ) (h1 : 0 < res) :
    0 < t * t + (res - t) * (res - t) := by
  nlinarith [sq_nonneg (2 * t - res)]

/-- Claim C4: after weight seeding each of the four nodes adjacent to any
source point has weight at least 1, the solver iteration never modifies any
weight (so this still holds at every Phase I update), and `0 ≤ ux1 ≤
resolution`, `0 ≤ vy1 ≤ resolution` hold by construction of the
adjacent-cell lookup, making the `u·v` denominators and the `Ak.weight`
divisors nonzero. -/
theorem C4_phase1_division_safe (s : List Coord) (precision : ℚ) (bbox : Option BBox)
    (f : ℚ → ℚ) (hb : wfOptBBox bbox)
    (hres : 0 < (NodeSet.new s precision bbox f).resolution)
    (p : Coord) (hp : p ∈ s) :
    (1 ≤ ((seedWeights (NodeSet.new s precision bbox f) s).get_adjacent_nodes p).1.weight
      ∧ 1 ≤ ((seedWeights (NodeSet.new s precision bbox f) s).get_adjacent_nodes p).2.1.weight
      ∧ 1 ≤ ((seedWeights (NodeSet.new s precision bbox f) s).get_adjacent_nodes p).2.2.1.weight
      ∧ 1 ≤ ((seedWeights (NodeSet.new s precision bbox f) s).get_adjacent_nodes p).2.2.2.weight)
    ∧ (∀ (fq : ℚ → ℚ) (r sx sy : ℚ) (rd n : ℕ) (pairs : List (Coord × Coord)) (idx : ℕ),
        weightAt idx (solverIter fq r sx sy rd pairs n
            (seedWeights (NodeSet.new s precision bbox f) s))
          = weightAt idx (seedWeights (NodeSet.new s precision bbox f) s))
    ∧ 0 ≤ p.x - ((NodeSet.new s precision bbox f).get_adjacent_nodes p).1.source.x
    ∧ p.x - ((NodeSet.new s precision bbox f).get_adjacent_nodes p).1.source.x
        ≤ (NodeSet.new s precision bbox f).resolution
    ∧ 0 ≤ p.y - ((NodeSet.new s precision bbox f).get_adjacent_nodes p).2.2.1.source.y
    ∧ p.y - ((NodeSet.new s precision bbox f).get_adjacent_nodes p).2.2.1.source.y
        ≤ (NodeSet.new s precision bbox f).resolution
    ∧ (p.x - ((NodeSet.new s precision bbox f).get_adjacent_nodes p).1.source.x)
          * (p.x - ((NodeSet.new s precision bbox f).get_adjacent_nodes p).1.source.x)
        + ((NodeSet.new s precision bbox f).resolution
            - (p.x - ((NodeSet.new s precision bbox f).get_adjacent_nodes p).1.source.x))
          * ((NodeSet.new s precision bbox f).resolution
            - (p.x - ((NodeSet.new s precision bbox f).get_adjacent_nodes p).1.source.x)) ≠ 0
    ∧ (p.y - ((NodeSet.new s precision bbox f).get_adjacent_nodes p).2.2.1.source.y)
          * (p.y - ((NodeSet.new s precision bbox f).get_adjacent_nodes p).2.2.1.source.y)
        + ((NodeSet.new s precision bbox f).resolution
            - (p.y - ((NodeSet.new s precision bbox f).get_adjacent_nodes p).2.2.1.source.y))
          * ((NodeSet.new s precision bbox f).resolution
            - (p.y - ((NodeSet.new s precision bbox f).get_adjacent_nodes p).2.2.1.source.y)) ≠ 0 := by
  set z0 := initialZone s bbox with hz0
  set res := (NodeSet.new s precision bbox f).resolution with hresdef
  have hw0 := initialZone_width_nonneg s bbox hb
  have hh0 := initialZone_height_nonneg s bbox hb
  have hpz := initialZone_contains s bbox hb p hp
  have hebuild : NodeSet.new s precision bbox f = NodeSet.build z0 res := rfl
  obtain ⟨bi, bj, bx1, bx2, by1, by2⟩ := build_cell_bounds z0 res hres hw0 hh0 p hpz
  set ns0 := NodeSet.build z0 res with hns0
  have hwidth : ns0.width = (⌈z0.width / res⌉).toNat + 2 := build_width_eq z0 res
  have hheight : ns0.height = (⌈z0.height / res⌉).toNat + 2 := build_height_eq z0 res
  have hilth : ns0.get_i p < ns0.height := by omega
  have hip1lth : ns0.get_i p + 1 < ns0.height := by omega
  have hjltw : ns0.get_j p < ns0.width := by omega
  have hjp1ltw : ns0.get_j p + 1 < ns0.width := by omega
  have hlen : ns0.nodes.length = ns0.height * ns0.width := build_nodes_length z0 res
  -- flat-index bounds
  have hfb0 : ns0.get_i p * ns0.width + ns0.get_j p < ns0.nodes.length := by
    rw [hlen]
    calc ns0.get_i p * ns0.width + ns0.get_j p
        < ns0.get_i p * ns0.width + ns0.width := by omega
      _ = (ns0.get_i p + 1) * ns0.width := by ring
      _ ≤ ns0.height * ns0.width := Nat.mul_le_mul_right _ (by omega)
  have hfb1 : ns0.get_i p * ns0.width + (ns0.get_j p + 1) < ns0.nodes.length := by
    rw [hlen]
    calc ns0.get_i p * ns0.width + (ns0.get_j p + 1)
        < ns0.get_i p * ns0.width + ns0.width := by omega
      _ = (ns0.get_i p + 1) * ns0.width := by ring
      _ ≤ ns0.height * ns0.width := Nat.mul_le_mul_right _ (by omega)
  have hfb2 : (ns0.get_i p + 1) * ns0.width + ns0.get_j p < ns0.nodes.length := by
    rw [hlen]
    calc (ns0.get_i p + 1) * ns0.width + ns0.get_j p
        < (ns0.get_i p + 1) * ns0.width + ns0.width := by omega
      _ = (ns0.get_i p + 2) * ns0.width := by ring
      _ ≤ ns0.height * ns0.width := Nat.mul_le_mul_right _ (by omega)
  have hfb3 : (ns0.get_i p + 1) * ns0.width + (ns0.get_j p + 1) < ns0.nodes.length := by
    rw [hlen]
    calc (ns0.get_i p + 1) * ns0.width + (ns0.get_j p + 1)
        < (ns0.get_i p + 1) * ns0.width + ns0.width := by omega
      _ = (ns0.get_i p + 2) * ns0.width := by ring
      _ ≤ ns0.height * ns0.width := Nat.mul_le_mul_right _ (by omega)
  -- seeded weights
  have hseedmeta := seedWeights_meta ns0 s
  have hszone : (seedWeights ns0 s).zone = ns0.zone := congrArg (fun m => m.1) hseedmeta
  have hsres : (seedWeights ns0 s).resolution = ns0.resolution := congrArg (fun m => m.2.1) hseedmeta
  have hswidth : (seedWeights ns0 s).width = ns0.width := congrArg (fun m => m.2.2.1) hseedmeta
  have hsgi : (seedWeights ns0 s).get_i p = ns0.get_i p := by
    unfold NodeSet.get_i
    rw [hszone, hsres]
  have hsgj : (seedWeights ns0 s).get_j p = ns0.get_j p := by
    unfold NodeSet.get_j
    rw [hszone, hsres]
  have hone := seed_ge_one s p (ns0.get_i p) (ns0.get_j p) ns0.width ns0.nodes.length
    hfb0 hfb1 hfb2 hfb3 ns0 hp rfl rfl rfl rfl (fun idx => le_of_eq (build_weight_zero z0 res idx).symm)
  -- adjacent-node sources on the fresh lattice
  have ha0 := build_get_node z0 res (ns0.get_i p) (ns0.get_j p) hilth hjltw
  have ha2 := build_get_node z0 res (ns0.get_i p + 1) (ns0.get_j p) hip1lth hjltw
  rw [← hns0] at ha0 ha2
  rw [hebuild]
  refine ⟨?_, ?_, ?_, ?_, ?_, ?_, ?_, ?_⟩
  · unfold NodeSet.get_adjacent_nodes
    dsimp only
    rw [hsgi, hsgj]
    have e0 : (seedWeights ns0 s).get_node (ns0.get_i p) (ns0.get_j p)
        = (seedWeights ns0 s).nodes.getD (ns0.get_i p * ns0.width + ns0.get_j p) default := by
      unfold NodeSet.get_node
      rw [hswidth]
    have e1 : (seedWeights ns0 s).get_node (ns0.get_i p) (ns0.get_j p + 1)
        = (seedWeights ns0 s).nodes.getD (ns0.get_i p * ns0.width + (ns0.get_j p + 1)) default := by
      unfold NodeSet.get_node
      rw [hswidth]
    have e2 : (seedWeights ns0 s).get_node (ns0.get_i p + 1) (ns0.get_j p)
        = (seedWeights ns0 s).nodes.getD ((ns0.get_i p + 1) * ns0.width + ns0.get_j p) default := by
      unfold NodeSet.get_node
      rw [hswidth]
    have e3 : (seedWeights ns0 s).get_node (ns0.get_i p + 1) (ns0.get_j p + 1)
        = (seedWeights ns0 s).nodes.getD ((ns0.get_i p + 1) * ns0.width + (ns0.get_j p + 1)) default := by
      unfold NodeSet.get_node
      rw [hswidth]
    rw [e0, e1, e2, e3]
    exact hone
  · intro fq r sx sy rd n pairs idx
    rw [weightAt_eq_swAt_snd, weightAt_eq_swAt_snd, solverIter_swAt]
  · unfold NodeSet.get_adjacent_nodes
    dsimp only
    rw [ha0]
    exact bx1
  · unfold NodeSet.get_adjacent_nodes
    dsimp only
    rw [ha0]
    exact le_of_lt bx2
  · unfold NodeSet.get_adjacent_nodes
    dsimp only
    rw [ha2]
    unfold Node.new
    dsimp only
    push_cast
    linarith [by1]
  · unfold NodeSet.get_adjacent_nodes
    dsimp only
    rw [ha2]
    unfold Node.new
    dsimp only
    push_cast
    linarith [by2]
  · unfold NodeSet.get_adjacent_nodes
    dsimp only
    rw [ha0]
    unfold Node.new
    dsimp only
    exact ne_of_gt (denom_pos res _ hres)
  · unfold NodeSet.get_adjacent_nodes
    dsimp only
    rw [ha2]
    unfold Node.new
    dsimp only
    push_cast
    exact ne_of_gt (denom_pos res _ hres)

/-- Witness for C4 at a concrete valid construction. -/
theorem C4_witness :
    1 ≤ ((seedWeights (NodeSet.new [⟨0, 0⟩, ⟨2, 4⟩] 1 none ratSqrt)
          [⟨0, 0⟩, ⟨2, 4⟩]).get_adjacent_nodes ⟨0, 0⟩).1.weight
    ∧ (⟨0, 0⟩ : Coord).x
        - ((NodeSet.new [⟨0, 0⟩, ⟨2, 4⟩] 1 none ratSqrt).get_adjacent_nodes ⟨0, 0⟩).1.source.x
      ≤ (NodeSet.new [⟨0, 0⟩, ⟨2, 4⟩] 1 none ratSqrt).resolution :=
  let h := C4_phase1_division_safe [⟨0, 0⟩, ⟨2, 4⟩] 1 none ratSqrt
    (by intro b hb; simp at hb)
    (of_decide_eq_true (by with_unfolding_all rfl))
    ⟨0, 0⟩ (List.mem_cons_self _ _)
  ⟨h.1.1, h.2.2.2.1⟩

/-! ## Claim C6 -/

/-- Claim C6: for every node index (i, j), `get_smoothed` returns the
interior 12-neighbour stencil `(8·(N+S+W+E) − 2·(NW+SW+SE+NE) −
(NN+SS+WW+EE))/20` when `1 < i < height−2` and `1 < j < width−2`, and
otherwise the sum of the existing 4-connected neighbours' `interp` plus a
signed phantom displacement `resolution·scale_axis` per missing cardinal
neighbour (not counted in the divisor), divided by the number of real
neighbours. -/
theorem C6_get_smoothed_matches_spec (ns : NodeSet) (i j : ℕ) (sx sy : ℚ) :
    ns.get_smoothed i j sx sy = get_smoothed_spec ns i j sx sy := by
  unfold NodeSet.get_smoothed get_smoothed_spec
  by_cases h : 1 < i ∧ 1 < j ∧ i < ns.height - 2 ∧ j < ns.width - 2
  · simp only [if_pos h, List.map_cons, List.map_nil, List.sum_cons, List.sum_nil,
      Coord.mk.injEq]
    constructor <;> ring
  · simp only [if_neg h]
    by_cases hN : 0 < i <;> by_cases hW : 0 < j <;>
      by_cases hS : i < ns.height - 1 <;> by_cases hE : j < ns.width - 1 <;>
      simp only [hN, hW, hS, hE, if_true, if_false, List.append_nil, List.nil_append,
        List.cons_append, List.map_cons, List.map_nil, List.sum_cons, List.sum_nil,
        List.length_cons, List.length_nil, Coord.mk.injEq, ite_true, ite_false] <;>
      constructor <;> push_cast <;> ring

/-! ## Claim C7 -/

/-- Claim C7: `Grid::new` returns `InvalidInputPointsLength` exactly when
the source and image lists have different lengths or the source list is
empty, and returns a grid for every equal-length non-empty input. -/
theorem C7_new_error_iff (s im : List Coord) (p : ℚ) (n : ℕ) (b : Option BBox)
    (f : ℚ → ℚ) :
    (Grid.new s im p n b f = .error .InvalidInputPointsLength
      ↔ s.length ≠ im.length ∨ s = [])
    ∧ ((∃ g, Grid.new s im p n b f = .ok g) ↔ s.length = im.length ∧ s ≠ []) := by
  unfold Grid.new
  by_cases h : s.length ≠ im.length ∨ s = []
  · rw [if_pos h]
    refine ⟨⟨fun _ => h, fun _ => rfl⟩, ⟨?_, ?_⟩⟩
    · rintro ⟨g, hg⟩
      cases hg
    · rintro ⟨hc1, hc2⟩
      rcases h with h | h
      · exact absurd hc1 h
      · exact absurd h hc2
  · rw [if_neg h]
    push_neg at h
    refine ⟨⟨?_, ?_⟩, ⟨fun _ => h, fun _ => ⟨_, rfl⟩⟩⟩
    · intro hg
      cases hg
    · intro hc
      rcases hc with hc | hc
      · exact absurd h.1 hc
      · exact absurd hc h.2

/-! ## Claim C1 -/

/-- Claim C1, counterexample: a valid construction (equal-length, non-empty
lists) for which the scales passed to the smoothing kernel by
`Grid.interpolate` differ from the tight-bounding-box ratios: the solver
rectangles are grown from `Rectangle2D::new(0., 0., -1., -1.)`, not from
the tight boxes of the points. -/
theorem C1_counterexample :
    ([⟨2, 2⟩, ⟨4, 4⟩] : List Coord).length = ([⟨2, 2⟩, ⟨6, 6⟩] : List Coord).length
    ∧ ([⟨2, 2⟩, ⟨4, 4⟩] : List Coord) ≠ []
    ∧ scale_x [⟨2, 2⟩, ⟨4, 4⟩] [⟨2, 2⟩, ⟨6, 6⟩]
        ≠ tight_scale_x [⟨2, 2⟩, ⟨4, 4⟩] [⟨2, 2⟩, ⟨6, 6⟩]
    ∧ scale_y [⟨2, 2⟩, ⟨4, 4⟩] [⟨2, 2⟩, ⟨6, 6⟩]
        ≠ tight_scale_y [⟨2, 2⟩, ⟨4, 4⟩] [⟨2, 2⟩, ⟨6, 6⟩] :=
  of_decide_eq_true (by with_unfolding_all rfl)

theorem solverRect_of_nonneg_aux (points : List Coord)
    (h : ∀ p ∈ points, 0 ≤ p.x ∧ 0 ≤ p.y) (M K : ℚ) :
    points.foldl Rectangle2D.add ⟨0, 0, K, M⟩ =
      ⟨0, 0, points.foldl (fun k c => max k c.y) K,
        points.foldl (fun m c => max m c.x) M⟩ := by
  induction points generalizing M K with
  | nil => rfl
  | cons p rest ih =>
    have hp := h p (List.mem_cons_self p rest)
    have hrest : ∀ q ∈ rest, 0 ≤ q.x ∧ 0 ≤ q.y := fun q hq => h q (List.mem_cons_of_mem p hq)
    have hstep : Rectangle2D.add ⟨0, 0, K, M⟩ p = ⟨0, 0, max K p.y, max M p.x⟩ := by
      unfold Rectangle2D.add
      have hx : ¬ p.x < (0 : ℚ) := not_lt.2 hp.1
      have hy : ¬ p.y < (0 : ℚ) := not_lt.2 hp.2
      by_cases hMx : p.x > 0 + M <;> by_cases hKy : p.y > 0 + K <;>
        simp only [hx, hy, hMx, hKy, if_true, if_false, ite_true, ite_false] <;>
        simp_all [Rectangle2D.mk.injEq, max_def, le_of_lt, le_of_not_lt]
    rw [List.foldl_cons, hstep, ih hrest]
    rfl

/-- Claim C1, amended: the scales used during iteration are the width/height
ratios of rectangles grown by `Rectangle2D::add` from the initial rectangle
`(x=0, y=0, width=−1, height=−1)`; when every coordinate is non-negative
(the typical projected-map case) this makes `sx` the ratio of the maxima
`max(−1, max image x) / max(−1, max source x)` (with lower edge pinned at
0), not the tight-bounding-box width ratio — and analogously for `sy`. -/
theorem C1_amended_scales (points image_points : List Coord)
    (hp : ∀ p ∈ points, 0 ≤ p.x ∧ 0 ≤ p.y)
    (hi : ∀ p ∈ image_points, 0 ≤ p.x ∧ 0 ≤ p.y) :
    scale_x points image_points =
      (image_points.foldl (fun m c => max m c.x) (-1))
        / (points.foldl (fun m c => max m c.x) (-1))
    ∧ scale_y points image_points =
      (image_points.foldl (fun k c => max k c.y) (-1))
        / (points.foldl (fun k c => max k c.y) (-1)) := by
  unfold scale_x scale_y solverRect
  rw [show Rectangle2D.new 0 0 (-1) (-1) = (⟨0, 0, -1, -1⟩ : Rectangle2D) from rfl,
    solverRect_of_nonneg_aux points hp (-1) (-1),
    solverRect_of_nonneg_aux image_points hi (-1) (-1)]
  exact ⟨rfl, rfl⟩

/-! ## Claim C2 -/

theorem build_amended (z0 : Rectangle2D) (res : ℚ) (hres : 0 < res) :
    (NodeSet.build z0 res).width = (⌈z0.width / res⌉).toNat + 2
    ∧ (NodeSet.build z0 res).height = (⌈z0.height / res⌉).toNat + 2
    ∧ (NodeSet.build z0 res).zone.x
      = z0.x - ((((NodeSet.build z0 res).width - 1 : ℕ) : ℚ) * res - z0.width) / 2
    ∧ (NodeSet.build z0 res).zone.x + (NodeSet.build z0 res).zone.width
      = z0.x + z0.width + ((((NodeSet.build z0 res).width - 1 : ℕ) : ℚ) * res - z0.width) / 2
    ∧ (NodeSet.build z0 res).zone.y
      = z0.y - ((((NodeSet.build z0 res).height - 1 : ℕ) : ℚ) * res - z0.height) / 2
    ∧ (NodeSet.build z0 res).zone.y + (NodeSet.build z0 res).zone.height
      = z0.y + z0.height + ((((NodeSet.build z0 res).height - 1 : ℕ) : ℚ) * res - z0.height) / 2 := by
  have hz := build_zone_eq z0 res hres
  have hwn : ((NodeSet.build z0 res).width - 1 : ℕ) = (⌈z0.width / res⌉).toNat + 1 := by
    rw [build_width_eq]
    omega
  have hhn : ((NodeSet.build z0 res).height - 1 : ℕ) = (⌈z0.height / res⌉).toNat + 1 := by
    rw [build_height_eq]
    omega
  refine ⟨build_width_eq z0 res, build_height_eq z0 res, ?_, ?_, ?_, ?_⟩ <;>
    rw [hz] <;> simp only [hwn, hhn, padX, padY] <;> push_cast <;> ring

/-- Claim C2, counterexample: for source points (0,0), (2,4) with precision 1
(resolution 2) the final lattice width is 3 but the zone is extended by only
((3−1)·2 − 2)/2 = 1 per side (zone.x = −1), not by the claimed
(width·resolution − zone.width)/2 = 2 with the final width: the code
re-centers before the last `+1` on each dimension. -/
theorem C2_counterexample :
    (NodeSet.new [⟨0, 0⟩, ⟨2, 4⟩] 1 none ratSqrt).width = 3
    ∧ (NodeSet.new [⟨0, 0⟩, ⟨2, 4⟩] 1 none ratSqrt).resolution = 2
    ∧ (initialZone [⟨0, 0⟩, ⟨2, 4⟩] none).x = 0
    ∧ (initialZone [⟨0, 0⟩, ⟨2, 4⟩] none).width = 2
    ∧ (NodeSet.new [⟨0, 0⟩, ⟨2, 4⟩] 1 none ratSqrt).zone.x = -1
    ∧ (NodeSet.new [⟨0, 0⟩, ⟨2, 4⟩] 1 none ratSqrt).zone.x
        ≠ (initialZone [⟨0, 0⟩, ⟨2, 4⟩] none).x
          - (((NodeSet.new [⟨0, 0⟩, ⟨2, 4⟩] 1 none ratSqrt).width : ℚ)
                * (NodeSet.new [⟨0, 0⟩, ⟨2, 4⟩] 1 none ratSqrt).resolution
              - (initialZone [⟨0, 0⟩, ⟨2, 4⟩] none).width) / 2 :=
  of_decide_eq_true (by with_unfolding_all rfl)

/-- Claim C2, amended: the builder's final lattice dimensions are
`width = ceil(zone.width/resolution) + 2` and analogously for height, as
claimed, but the zone is re-centered using the pre-increment dimension:
each side is extended by `((width − 1)·resolution − zone.width)/2` (the
code sets `width = ceil + 1`, re-centers, and only then increments to
`ceil + 2`). -/
theorem C2_amended_builder (points : List Coord) (precision : ℚ) (bbox : Option BBox)
    (f : ℚ → ℚ) (hres : 0 < (NodeSet.new points precision bbox f).resolution) :
    (NodeSet.new points precision bbox f).width
      = (⌈(initialZone points bbox).width / (NodeSet.new points precision bbox f).resolution⌉).toNat + 2
    ∧ (NodeSet.new points precision bbox f).height
      = (⌈(initialZone points bbox).height / (NodeSet.new points precision bbox f).resolution⌉).toNat + 2
    ∧ (NodeSet.new points precision bbox f).zone.x
      = (initialZone points bbox).x
        - ((((NodeSet.new points precision bbox f).width - 1 : ℕ) : ℚ)
              * (NodeSet.new points precision bbox f).resolution
            - (initialZone points bbox).width) / 2
    ∧ (NodeSet.new points precision bbox f).zone.x + (NodeSet.new points precision bbox f).zone.width
      = (initialZone points bbox).x + (initialZone points bbox).width
        + ((((NodeSet.new points precision bbox f).width - 1 : ℕ) : ℚ)
              * (NodeSet.new points precision bbox f).resolution
            - (initialZone points bbox).width) / 2
    ∧ (NodeSet.new points precision bbox f).zone.y
      = (initialZone points bbox).y
        - ((((NodeSet.new points precision bbox f).height - 1 : ℕ) : ℚ)
              * (NodeSet.new points precision bbox f).resolution
            - (initialZone points bbox).height) / 2
    ∧ (NodeSet.new points precision bbox f).zone.y + (NodeSet.new points precision bbox f).zone.height
      = (initialZone points bbox).y + (initialZone points bbox).height
        + ((((NodeSet.new points precision bbox f).height - 1 : ℕ) : ℚ)
              * (NodeSet.new points precision bbox f).resolution
            - (initialZone points bbox).height) / 2 :=
  build_amended (initialZone points bbox)
    ((NodeSet.new points precision bbox f).resolution) hres

/-- Witness for C2's amended theorem at a concrete valid construction. -/
theorem C2_amended_witness :
    (NodeSet.new [⟨0, 0⟩, ⟨2, 4⟩] 1 none ratSqrt).zone.x
      = (initialZone [⟨0, 0⟩, ⟨2, 4⟩] none).x
        - ((((NodeSet.new [⟨0, 0⟩, ⟨2, 4⟩] 1 none ratSqrt).width - 1 : ℕ) : ℚ)
              * (NodeSet.new [⟨0, 0⟩, ⟨2, 4⟩] 1 none ratSqrt).resolution
            - (initialZone [⟨0, 0⟩, ⟨2, 4⟩] none).width) / 2 :=
  (C2_amended_builder [⟨0, 0⟩, ⟨2, 4⟩] 1 none ratSqrt
    (of_decide_eq_true (by with_unfolding_all rfl))).2.2.1

/-! ## Claim C3 -/

theorem new_ok_grid_of (s im : List Coord) (precision : ℚ) (n_iter : ℕ)
    (bbox : Option BBox) (f : ℚ → ℚ) (g : Grid)
    (hok : Grid.new s im precision n_iter bbox f = .ok g) :
    g = grid_of s im precision n_iter bbox f ∧ s.length = im.length ∧ s ≠ [] := by
  unfold Grid.new at hok
  by_cases h : s.length ≠ im.length ∨ s = []
  · rw [if_pos h] at hok
    cases hok
  · rw [if_neg h] at hok
    rw [Except.ok.injEq] at hok
    push_neg at h
    exact ⟨hok.symm, h.1, h.2⟩

theorem grid_of_strict_contains (s im : List Coord) (precision : ℚ)
    (bbox : Option BBox) (f : ℚ → ℚ) (n_iter : ℕ)
    (hb : wfOptBBox bbox)
    (hres : 0 < (grid_of s im precision n_iter bbox f).nodes.resolution)
    (p : Coord) (hp : p ∈ s) :
    (grid_of s im precision n_iter bbox f).bbox.contains p = true
    ∧ (grid_of s im precision n_iter bbox f).nodes.zone.x < p.x
    ∧ p.x < (grid_of s im precision n_iter bbox f).nodes.zone.x
        + (grid_of s im precision n_iter bbox f).nodes.zone.width
    ∧ (grid_of s im precision n_iter bbox f).nodes.zone.y < p.y
    ∧ p.y < (grid_of s im precision n_iter bbox f).nodes.zone.y
        + (grid_of s im precision n_iter bbox f).nodes.zone.height := by
  have hmeta := grid_of_nodes_meta s im precision n_iter bbox f
  have hzone : (grid_of s im precision n_iter bbox f).nodes.zone
      = (NodeSet.new s precision bbox f).zone := congrArg (fun m => m.1) hmeta
  have hres2 : (grid_of s im precision n_iter bbox f).nodes.resolution
      = (NodeSet.new s precision bbox f).resolution := congrArg (fun m => m.2.1) hmeta
  have hres' : 0 < (NodeSet.new s precision bbox f).resolution := by
    rw [← hres2]; exact hres
  have hsc := build_strict_contains (initialZone s bbox)
    ((NodeSet.new s precision bbox f).resolution) hres'
    (initialZone_width_nonneg s bbox hb) (initialZone_height_nonneg s bbox hb)
    p (initialZone_contains s bbox hb p hp)
  have ebuild : NodeSet.build (initialZone s bbox)
      ((NodeSet.new s precision bbox f).resolution) = NodeSet.new s precision bbox f := rfl
  rw [ebuild] at hsc
  unfold Grid.bbox Rectangle2D.as_bbox BBox.contains
  rw [hzone]
  dsimp only
  simp only [ge_iff_le, Bool.and_eq_true, decide_eq_true_eq]
  obtain ⟨a1, a2, a3, a4⟩ := hsc
  exact ⟨⟨⟨⟨a1.le, a2.le⟩, a3.le⟩, a4.le⟩, a1, a2, a3, a4⟩

/-- Claim C3: after every valid construction (any bbox, well-formed, even one
not covering the points), every source point lies in `bbox()` and the grid
zone strictly contains it (positive distance to each zone edge). -/
theorem C3_source_points_in_zone (s im : List Coord) (precision : ℚ)
    (bbox : Option BBox) (f : ℚ → ℚ) (n_iter : ℕ) (g : Grid)
    (hok : Grid.new s im precision n_iter bbox f = .ok g)
    (hb : wfOptBBox bbox)
    (hres : 0 < g.nodes.resolution)
    (p : Coord) (hp : p ∈ s) :
    g.bbox.contains p = true
    ∧ g.nodes.zone.x < p.x ∧ p.x < g.nodes.zone.x + g.nodes.zone.width
    ∧ g.nodes.zone.y < p.y ∧ p.y < g.nodes.zone.y + g.nodes.zone.height := by
  obtain ⟨hg, -, -⟩ := new_ok_grid_of s im precision n_iter bbox f g hok
  subst hg
  exact grid_of_strict_contains s im precision bbox f n_iter hb hres p hp

/-- Witness for C3 at a concrete valid construction. -/
theorem C3_witness :
    (grid_of [⟨0, 0⟩, ⟨2, 4⟩] [⟨0, 0⟩, ⟨2, 4⟩] 1 0 none ratSqrt).bbox.contains ⟨0, 0⟩ = true
    ∧ (grid_of [⟨0, 0⟩, ⟨2, 4⟩] [⟨0, 0⟩, ⟨2, 4⟩] 1 0 none ratSqrt).nodes.zone.x < (0 : ℚ)
    ∧ (0 : ℚ) < (grid_of [⟨0, 0⟩, ⟨2, 4⟩] [⟨0, 0⟩, ⟨2, 4⟩] 1 0 none ratSqrt).nodes.zone.x
        + (grid_of [⟨0, 0⟩, ⟨2, 4⟩] [⟨0, 0⟩, ⟨2, 4⟩] 1 0 none ratSqrt).nodes.zone.width
    ∧ (grid_of [⟨0, 0⟩, ⟨2, 4⟩] [⟨0, 0⟩, ⟨2, 4⟩] 1 0 none ratSqrt).nodes.zone.y < (0 : ℚ)
    ∧ (0 : ℚ) < (grid_of [⟨0, 0⟩, ⟨2, 4⟩] [⟨0, 0⟩, ⟨2, 4⟩] 1 0 none ratSqrt).nodes.zone.y
        + (grid_of [⟨0, 0⟩, ⟨2, 4⟩] [⟨0, 0⟩, ⟨2, 4⟩] 1 0 none ratSqrt).nodes.zone.height :=
  C3_source_points_in_zone [⟨0, 0⟩, ⟨2, 4⟩] [⟨0, 0⟩, ⟨2, 4⟩] 1 none ratSqrt 0
    (grid_of [⟨0, 0⟩, ⟨2, 4⟩] [⟨0, 0⟩, ⟨2, 4⟩] 1 0 none ratSqrt)
    (by with_unfolding_all rfl)
    (by intro b hb; simp at hb)
    (of_decide_eq_true (by with_unfolding_all rfl))
    ⟨0, 0⟩ (List.mem_cons_self _ _)

/-! ## Claim C5 -/

/-- Claim C5: for every valid construction and every index k below the input
length, the cached value `interpolated_points[k]` is exactly what
`get_interp_point(source_points[k])` returns on the finished grid. -/
theorem C5_cache_coherent (s im : List Coord) (precision : ℚ) (bbox : Option BBox)
    (f : ℚ → ℚ) (n_iter : ℕ) (g : Grid)
    (hok : Grid.new s im precision n_iter bbox f = .ok g)
    (hb : wfOptBBox bbox) (hres : 0 < g.nodes.resolution)
    (k : ℕ) (hk : k < s.length) :
    g.get_interp_point (s.getD k default) = .ok (g.interpolated_points.getD k default) := by
  obtain ⟨hg, -, -⟩ := new_ok_grid_of s im precision n_iter bbox f g hok
  subst hg
  have hmem : s.getD k default ∈ s := by
    rw [List.getD_eq_getElem _ _ hk]
    exact List.getElem_mem hk
  have hcont := (grid_of_strict_contains s im precision bbox f n_iter hb hres _ hmem).1
  unfold Grid.get_interp_point
  rw [hcont]
  simp only [not_true, not_true_eq_false, ite_false, if_false]
  have hip : (grid_of s im precision n_iter bbox f).interpolated_points
      = s.map ((grid_of s im precision n_iter bbox f).nodes.interp_point) := rfl
  rw [hip]
  rw [List.getD_eq_getElem _ _ hk, List.getD_eq_getElem _ _ (by rw [List.length_map]; exact hk),
    List.getElem_map]

/-- Witness for C5 at a concrete valid construction. -/
theorem C5_witness :
    (grid_of [⟨0, 0⟩, ⟨2, 4⟩] [⟨0, 0⟩, ⟨2, 4⟩] 1 0 none ratSqrt).get_interp_point
        (([⟨0, 0⟩, ⟨2, 4⟩] : List Coord).getD 0 default)
      = .ok ((grid_of [⟨0, 0⟩, ⟨2, 4⟩] [⟨0, 0⟩, ⟨2, 4⟩] 1 0 none ratSqrt).interpolated_points.getD
          0 default) :=
  C5_cache_coherent [⟨0, 0⟩, ⟨2, 4⟩] [⟨0, 0⟩, ⟨2, 4⟩] 1 none ratSqrt 0
    (grid_of [⟨0, 0⟩, ⟨2, 4⟩] [⟨0, 0⟩, ⟨2, 4⟩] 1 0 none ratSqrt)
    (by with_unfolding_all rfl)
    (by intro b hb; simp at hb)
    (of_decide_eq_true (by with_unfolding_all rfl))
    0 (by norm_num)

/-! ## Claim C8 -/

theorem foldl_range_sum (n : ℕ) (g : ℕ → ℚ) :
    (List.range n).foldl (fun acc i => acc + g i) 0 = ∑ k in Finset.range n, g k := by
  induction n with
  | zero => simp
  | succ n ih =>
    rw [List.range_succ, List.foldl_append, ih, Finset.sum_range_succ]
    rfl

/-- Claim C8: the stored MAE is the sum over all k of
`|image[k].x − interp[k].x| + |image[k].y − interp[k].y|` divided by N (not
2N, and not a Euclidean per-point distance), with `interp` the cached
interpolated points. -/
theorem C8_mae_formula (s im : List Coord) (precision : ℚ) (bbox : Option BBox)
    (f : ℚ → ℚ) (n_iter : ℕ) (g : Grid)
    (hok : Grid.new s im precision n_iter bbox f = .ok g) :
    g.mae = (∑ k in Finset.range s.length,
        (|(im.getD k default).x - (g.interpolated_points.getD k default).x|
          + |(im.getD k default).y - (g.interpolated_points.getD k default).y|))
      / (s.length : ℚ) := by
  obtain ⟨hg, hlen, -⟩ := new_ok_grid_of s im precision n_iter bbox f g hok
  subst hg
  have hmae : (grid_of s im precision n_iter bbox f).mae
      = mae im (grid_of s im precision n_iter bbox f).interpolated_points := rfl
  rw [hmae]
  unfold mae
  dsimp only
  rw [foldl_range_sum im.length
    (fun k => |(im.getD k default).x
        - ((grid_of s im precision n_iter bbox f).interpolated_points.getD k default).x|
      + |(im.getD k default).y
        - ((grid_of s im precision n_iter bbox f).interpolated_points.getD k default).y|)]
  rw [hlen]

/-- Witness for C8 at a concrete valid construction. -/
theorem C8_witness :
    (grid_of [⟨0, 0⟩, ⟨2, 4⟩] [⟨0, 0⟩, ⟨2, 4⟩] 1 0 none ratSqrt).mae
      = (∑ k in Finset.range ([⟨0, 0⟩, ⟨2, 4⟩] : List Coord).length,
          (|(([⟨0, 0⟩, ⟨2, 4⟩] : List Coord).getD k default).x
              - ((grid_of [⟨0, 0⟩, ⟨2, 4⟩] [⟨0, 0⟩, ⟨2, 4⟩] 1 0 none
                  ratSqrt).interpolated_points.getD k default).x|
            + |(([⟨0, 0⟩, ⟨2, 4⟩] : List Coord).getD k default).y
              - ((grid_of [⟨0, 0⟩, ⟨2, 4⟩] [⟨0, 0⟩, ⟨2, 4⟩] 1 0 none
                  ratSqrt).interpolated_points.getD k default).y|))
        / (([⟨0, 0⟩, ⟨2, 4⟩] : List Coord).length : ℚ) :=
  C8_mae_formula [⟨0, 0⟩, ⟨2, 4⟩] [⟨0, 0⟩, ⟨2, 4⟩] 1 none ratSqrt 0
    (grid_of [⟨0, 0⟩, ⟨2, 4⟩] [⟨0, 0⟩, ⟨2, 4⟩] 1 0 none ratSqrt)
    (by with_unfolding_all rfl)

/-! ## Claim C9 -/

/-- Claim C9: the `source` field of every node is never mutated after
lattice construction — Phase I, Phase II and weight seeding leave it
untouched — and `get_grid(Source)` emits the undeformed lattice of the
freshly built node set. -/
theorem C9_source_never_mutated (s im : List Coord) (precision : ℚ)
    (bbox : Option BBox) (f : ℚ → ℚ) (n_iter : ℕ) (g : Grid)
    (hok : Grid.new s im precision n_iter bbox f = .ok g) :
    (∀ idx, sourceAt idx g.nodes = sourceAt idx (NodeSet.new s precision bbox f))
    ∧ g.get_grid .Source
        = (NodeSet.new s precision bbox f).gridPolys (fun n => n.source) := by
  obtain ⟨hg, -, -⟩ := new_ok_grid_of s im precision n_iter bbox f g hok
  subst hg
  refine ⟨grid_of_sourceAt s im precision n_iter bbox f, ?_⟩
  have hmeta := grid_of_nodes_meta s im precision n_iter bbox f
  have hw2 : (grid_of s im precision n_iter bbox f).nodes.width
      = (NodeSet.new s precision bbox f).width := congrArg (fun m => m.2.2.1) hmeta
  have hh2 : (grid_of s im precision n_iter bbox f).nodes.height
      = (NodeSet.new s precision bbox f).height := congrArg (fun m => m.2.2.2.1) hmeta
  have hsrc : ∀ idx, ((grid_of s im precision n_iter bbox f).nodes.nodes.getD idx default).source
      = ((NodeSet.new s precision bbox f).nodes.getD idx default).source := fun idx => by
    have h := grid_of_sourceAt s im precision n_iter bbox f idx
    unfold sourceAt at h
    exact h
  unfold Grid.get_grid NodeSet.gridPolys NodeSet.get_node
  simp only [hw2, hh2, hsrc]

/-- Witness for C9 at a concrete valid construction. -/
theorem C9_witness :
    sourceAt 0 (grid_of [⟨0, 0⟩, ⟨2, 4⟩] [⟨0, 0⟩, ⟨2, 4⟩] 1 0 none ratSqrt).nodes
      = sourceAt 0 (NodeSet.new [⟨0, 0⟩, ⟨2, 4⟩] 1 none ratSqrt)
    ∧ (grid_of [⟨0, 0⟩, ⟨2, 4⟩] [⟨0, 0⟩, ⟨2, 4⟩] 1 0 none ratSqrt).get_grid .Source
      = (NodeSet.new [⟨0, 0⟩, ⟨2, 4⟩] 1 none ratSqrt).gridPolys (fun n => n.source) :=
  let h := C9_source_never_mutated [⟨0, 0⟩, ⟨2, 4⟩] [⟨0, 0⟩, ⟨2, 4⟩] 1 none ratSqrt 0
    (grid_of [⟨0, 0⟩, ⟨2, 4⟩] [⟨0, 0⟩, ⟨2, 4⟩] 1 0 none ratSqrt)
    (by with_unfolding_all rfl)
  ⟨h.1 0, h.2⟩

/-! ## Claim C10 -/

set_option maxRecDepth 100000 in
/-- Claim C10: `BBox::from_geometries` visits only polygon exterior rings,
so a polygon whose interior-ring vertex lies far outside the grid's bbox
(while its exterior ring lies inside) passes the `GeometriesNotInBBox`
check, after which the per-vertex interpolation performs an unguarded
node-index lookup for that out-of-zone vertex and panics (`Except.ok none`
in this model): `interpolate_layer` is not total. -/
theorem C10_interior_ring_escapes_bbox_check :
    Grid.new [⟨0, 0⟩, ⟨2, 4⟩] [⟨0, 0⟩, ⟨2, 4⟩] 1 0 none ratSqrt
        = .ok (grid_of [⟨0, 0⟩, ⟨2, 4⟩] [⟨0, 0⟩, ⟨2, 4⟩] 1 0 none ratSqrt)
    ∧ (grid_of [⟨0, 0⟩, ⟨2, 4⟩] [⟨0, 0⟩, ⟨2, 4⟩] 1 0 none ratSqrt).bbox.contains
        ⟨0, -1000⟩ = false
    ∧ (grid_of [⟨0, 0⟩, ⟨2, 4⟩] [⟨0, 0⟩, ⟨2, 4⟩] 1 0 none ratSqrt).interpolate_layer
        [Geometry.polygon ⟨[⟨0, 0⟩, ⟨1, 0⟩, ⟨1, 1⟩, ⟨0, 1⟩, ⟨0, 0⟩],
          [[⟨0, -1000⟩, ⟨1, -1000⟩, ⟨0, -999⟩, ⟨0, -1000⟩]]⟩]
        = .ok none :=
  ⟨by with_unfolding_all rfl, by with_unfolding_all rfl, by with_unfolding_all rfl⟩

/-- Witness for C1's amended theorem at a concrete valid construction. -/
theorem C1_amended_witness :
    scale_x [⟨2, 2⟩, ⟨4, 4⟩] [⟨2, 2⟩, ⟨6, 6⟩] =
      (([⟨2, 2⟩, ⟨6, 6⟩] : List Coord).foldl (fun m c => max m c.x) (-1))
        / (([⟨2, 2⟩, ⟨4, 4⟩] : List Coord).foldl (fun m c => max m c.x) (-1))
    ∧ scale_y [⟨2, 2⟩, ⟨4, 4⟩] [⟨2, 2⟩, ⟨6, 6⟩] =
      (([⟨2, 2⟩, ⟨6, 6⟩] : List Coord).foldl (fun k c => max k c.y) (-1))
        / (([⟨2, 2⟩, ⟨4, 4⟩] : List Coord).foldl (fun k c => max k c.y) (-1)) :=
  C1_amended_scales [⟨2, 2⟩, ⟨4, 4⟩] [⟨2, 2⟩, ⟨6, 6⟩]
    (by intro p hp; simp only [List.mem_cons, List.not_mem_nil, or_false] at hp
        rcases hp with rfl | rfl <;> exact ⟨by norm_num, by norm_num⟩)
    (by intro p hp; simp only [List.mem_cons, List.not_mem_nil, or_false] at hp
        rcases hp with rfl | rfl <;> exact ⟨by norm_num, by norm_num⟩)

end DC
